import Mathlib

/-!
Verification of the fsm-mcp-python-client agent-orchestrator core.

This file shallowly embeds, in Lean, the parts of the source that the
specification claims C1..C10 are about:

* `src/adapters/ollama/ollama_tool_mapper.py` — schema root-normalization and
  the capability-update summary formatter;
* `src/adapters/ollama/ollama_call_translator.py` and
  `src/adapters/adapter.py` — tool-call extraction / JSON-RPC emission;
* `src/mcp/client.py` — `execute_json_rpc` routing and `initialize`;
* `src/util/stream_buffer.py` — the incremental delta buffer;
* `src/mcp/sampling.py` — the global sampling gateway and its counters;
* `src/agent/manager.py` — session creation, the pending-turn accumulator,
  the capability-change hook, and the streaming turn processor.

Python dictionaries are modelled as association lists with unique keys
(first-match lookup); Python values appearing in those dictionaries are
modelled by the `Json` inductive below.  Raising a Python exception is
modelled by `Except.error`; awaited collaborators (the MCP server, the model
runtime) are passed in as explicit oracles.
-/

/-- JSON-like values, standing in for Python objects stored in dicts
(`dict[str, Any]` payloads of tool calls, JSON-RPC requests, schemas). -/
inductive Json where
  | null
  | bool (b : Bool)
  | num (n : Int)
  | str (s : String)
  | arr (xs : List Json)
  | obj (fields : List (String × Json))
deriving Repr, Inhabited

namespace Json

/-- First-match association-list lookup, the model of `d.get(k)` on a Python
dict (whose keys are unique). -/
def lookupKey : List (String × Json) → String → Option Json
  | [], _ => none
  | (k, v) :: rest, key => if k = key then some v else lookupKey rest key

/-- Removal of a key, the model of `d.pop(k, None)` on a dict copy.  Python
dict keys are unique, so removing every match agrees with removing one. -/
def eraseKey : List (String × Json) → String → List (String × Json)
  | [], _ => []
  | (k, v) :: rest, key =>
      if k = key then eraseKey rest key else (k, v) :: eraseKey rest key

/-- Python truthiness of the modelled values (`bool(x)`). -/
def truthy : Json → Bool
  | .null => false
  | .bool b => b
  | .num n => decide (n ≠ 0)
  | .str s => decide (s ≠ "")
  | .arr xs => !xs.isEmpty
  | .obj fs => !fs.isEmpty

/-- Python equality of a looked-up value against a string literal, as in
`sch.get("type") != "object"`: `None` and non-string values are unequal. -/
def isStrVal (v : Option Json) (s : String) : Bool :=
  match v with
  | some (.str t) => t = s
  | _ => false

/-- A value that cannot be a Python dict key (`list`/`dict` are unhashable;
using one as a key raises `TypeError`). -/
def unhashable : Json → Bool
  | .arr _ => true
  | .obj _ => true
  | _ => false

theorem lookupKey_eraseKey_ne (fields : List (String × Json)) (k k' : String)
    (h : k ≠ k') : lookupKey (eraseKey fields k') k = lookupKey fields k := by
  induction fields with
  | nil => rfl
  | cons p rest ih =>
    obtain ⟨pk, pv⟩ := p
    by_cases hp : pk = k'
    · have hk : pk ≠ k := fun hkk => h (hkk ▸ hp)
      simp [eraseKey, lookupKey, hp, hk, ih, Ne.symm h]
    · by_cases hk : pk = k
      · simp [eraseKey, lookupKey, hp, hk, h]
      · simp [eraseKey, lookupKey, hp, hk, ih]

theorem lookupKey_eraseKey_self (fields : List (String × Json)) (k : String) :
    lookupKey (eraseKey fields k) k = none := by
  induction fields with
  | nil => rfl
  | cons p rest ih =>
    obtain ⟨pk, pv⟩ := p
    by_cases hp : pk = k
    · simpa [eraseKey, hp] using ih
    · simpa [eraseKey, lookupKey, hp] using ih

end Json

/-! ## C5 — `OllamaToolMapper._normalize_root_schema`
(`src/adapters/ollama/ollama_tool_mapper.py`, lines 142-152). -/

/-- Embedding of `_normalize_root_schema`.  `sch = dict(schema or {})` then
`sch.pop("$schema", None)`; if `sch.get("type") != "object"` the **original**
`schema or {}` is wrapped as the `payload` property. -/
def normalizeRootSchema (schema : List (String × Json)) : List (String × Json) :=
  let sch := Json.eraseKey schema "$schema"
  if Json.isStrVal (Json.lookupKey sch "type") "object" then
    sch
  else
    [("type", Json.str "object"),
     ("properties", Json.obj [("payload", Json.obj schema)]),
     ("required", Json.arr [Json.str "payload"]),
     ("additionalProperties", Json.bool false)]

example :
    normalizeRootSchema [("$schema", Json.str "x"), ("type", Json.str "object"),
      ("properties", Json.obj [])] =
    [("type", Json.str "object"), ("properties", Json.obj [])] := by rfl

example :
    normalizeRootSchema [("type", Json.str "string")] =
    [("type", Json.str "object"),
     ("properties", Json.obj [("payload", Json.obj [("type", Json.str "string")])]),
     ("required", Json.arr [Json.str "payload"]),
     ("additionalProperties", Json.bool false)] := by rfl

theorem eraseKey_of_lookupKey_none (fields : List (String × Json)) (k : String)
    (h : Json.lookupKey fields k = none) : Json.eraseKey fields k = fields := by
  induction fields with
  | nil => rfl
  | cons p rest ih =>
    obtain ⟨pk, pv⟩ := p
    by_cases hp : pk = k
    · simp [Json.lookupKey, hp] at h
    · simp [Json.lookupKey, hp] at h
      simp [Json.eraseKey, hp, ih h]

/-- **C5** — For every MCP tool in the catalog, the provider tool spec's
`parameters` field equals the tool's input schema when that schema is an
object schema (with any `$schema` key stripped; unchanged when none is
present), and otherwise equals
`{type:"object", properties:{payload: <original>}, required:["payload"],
additionalProperties:false}`; in both cases the resulting parameters mapping
carries no `$schema` key. -/
theorem C5_normalize_root_schema (schema : List (String × Json)) :
    (Json.isStrVal (Json.lookupKey schema "type") "object" = true →
      normalizeRootSchema schema = Json.eraseKey schema "$schema") ∧
    (Json.isStrVal (Json.lookupKey schema "type") "object" = true →
      Json.lookupKey schema "$schema" = none →
      normalizeRootSchema schema = schema) ∧
    (Json.isStrVal (Json.lookupKey schema "type") "object" = false →
      normalizeRootSchema schema =
        [("type", Json.str "object"),
         ("properties", Json.obj [("payload", Json.obj schema)]),
         ("required", Json.arr [Json.str "payload"]),
         ("additionalProperties", Json.bool false)]) ∧
    Json.lookupKey (normalizeRootSchema schema) "$schema" = none := by
  have hty : Json.lookupKey (Json.eraseKey schema "$schema") "type" =
      Json.lookupKey schema "type" :=
    Json.lookupKey_eraseKey_ne schema "type" "$schema" (by decide)
  refine ⟨?_, ?_, ?_, ?_⟩
  · intro h
    simp [normalizeRootSchema, hty, h]
  · intro h hnone
    simp [normalizeRootSchema, hty, h, eraseKey_of_lookupKey_none schema "$schema" hnone]
  · intro h
    simp [normalizeRootSchema, hty, h]
  · by_cases h : Json.isStrVal (Json.lookupKey schema "type") "object" = true
    · simp [normalizeRootSchema, hty, h, Json.lookupKey_eraseKey_self]
    · simp only [Bool.not_eq_true] at h
      simp [normalizeRootSchema, hty, h, Json.lookupKey]

/-- Witness for C5 at concrete schemas: one object schema carrying a
`$schema` key, one non-object schema. -/
theorem C5_normalize_root_schema_witness :
    (normalizeRootSchema [("$schema", Json.str "d"), ("type", Json.str "object")] =
      [("type", Json.str "object")]) ∧
    (normalizeRootSchema [("type", Json.str "string")] =
      [("type", Json.str "object"),
       ("properties", Json.obj [("payload", Json.obj [("type", Json.str "string")])]),
       ("required", Json.arr [Json.str "payload"]),
       ("additionalProperties", Json.bool false)]) ∧
    (normalizeRootSchema [("type", Json.str "object")] = [("type", Json.str "object")]) :=
  ⟨(C5_normalize_root_schema _).1 (by rfl),
   (C5_normalize_root_schema _).2.2.1 (by rfl),
   (C5_normalize_root_schema _).2.1 (by rfl) (by rfl)⟩

/-! ## C4 — `StreamBuffer.get_delta` (`src/util/stream_buffer.py`, lines 23-68).

Python strings are modelled as character lists: slicing
`content[len(buf):]` is `List.drop`, concatenation is `++`. -/

/-- Model of a Python `str` for the stream-buffer operations. -/
abbrev PyStr := List Char

/-- The `_buffers` dict of `StreamBuffer`, keyed by `f"{user}:{chat}:{type}"`. -/
structure StreamBufferState where
  buffers : List (String × PyStr)
deriving Repr

/-- `StreamBuffer._get_buffer_key`. -/
def bufferKey (userId chatId bufferType : String) : String :=
  userId ++ ":" ++ chatId ++ ":" ++ bufferType

def bufLookup : List (String × PyStr) → String → Option PyStr
  | [], _ => none
  | (k, v) :: rest, key => if k = key then some v else bufLookup rest key

def bufInsert : List (String × PyStr) → String → PyStr → List (String × PyStr)
  | [], key, val => [(key, val)]
  | (k, v) :: rest, key, val =>
      if k = key then (k, val) :: rest else (k, v) :: bufInsert rest key val

/-- The stored buffer defaulted to `""`, as in `self._buffers.get(key, "")`. -/
def storedAt (b : StreamBufferState) (key : String) : PyStr :=
  (bufLookup b.buffers key).getD []

/-- Embedding of `StreamBuffer.get_delta`: returns
`((delta_content, is_first_output), updated buffer state)`. -/
def getDelta (b : StreamBufferState) (userId chatId : String) (content : PyStr)
    (bufferType : String) : (Option PyStr × Bool) × StreamBufferState :=
  let key := bufferKey userId chatId bufferType
  let currentBuffer := storedAt b key
  let isFirst := (bufLookup b.buffers key).isNone
  if currentBuffer = content then ((none, false), b)
  else if currentBuffer.length < content.length then
    ((some (content.drop currentBuffer.length), isFirst),
      ⟨bufInsert b.buffers key content⟩)
  else if content.length < currentBuffer.length then
    ((some content, isFirst), ⟨bufInsert b.buffers key content⟩)
  else ((none, false), b)

/-- Feed a sequence of cumulative strings through one buffer key, collecting
every returned delta. -/
def runDeltas (b : StreamBufferState) (userId chatId bufferType : String) :
    List PyStr → List (Option PyStr) × StreamBufferState
  | [] => ([], b)
  | x :: xs =>
    let r := getDelta b userId chatId x bufferType
    let rest := runDeltas r.2 userId chatId bufferType xs
    (r.1.1 :: rest.1, rest.2)

/-- `sum(deltas)`: concatenation of the non-null deltas. -/
def joinDeltas (ds : List (Option PyStr)) : PyStr :=
  (ds.filterMap id).flatten

theorem bufLookup_bufInsert_self (bs : List (String × PyStr)) (k : String) (v : PyStr) :
    bufLookup (bufInsert bs k v) k = some v := by
  induction bs with
  | nil => simp [bufInsert, bufLookup]
  | cons p rest ih =>
    obtain ⟨pk, pv⟩ := p
    by_cases hp : pk = k
    · simp [bufInsert, bufLookup, hp]
    · simp [bufInsert, bufLookup, hp, ih]

theorem storedAt_getDelta (b : StreamBufferState) (u c t : String) (x : PyStr)
    (h : storedAt b (bufferKey u c t) <+: x) :
    storedAt (getDelta b u c x t).2 (bufferKey u c t) = x := by
  by_cases he : storedAt b (bufferKey u c t) = x
  · simp [getDelta, he]
  · have hlt : (storedAt b (bufferKey u c t)).length < x.length :=
      lt_of_le_of_ne h.length_le (fun hl => he (h.eq_of_length hl))
    have he' : ¬ (bufLookup b.buffers (bufferKey u c t)).getD [] = x := he
    have hlt' : ((bufLookup b.buffers (bufferKey u c t)).getD []).length < x.length := hlt
    simp [getDelta, storedAt, he', hlt', bufLookup_bufInsert_self]

theorem joinDeltas_runDeltas (u c t : String) :
    ∀ (contents : List PyStr) (b : StreamBufferState),
    List.Chain' (· <+: ·) (storedAt b (bufferKey u c t) :: contents) →
    storedAt b (bufferKey u c t) ++ joinDeltas (runDeltas b u c t contents).1 =
      contents.getLastD (storedAt b (bufferKey u c t)) := by
  intro contents
  induction contents with
  | nil => intro b _; simp [runDeltas, joinDeltas]
  | cons x xs ih =>
    intro b hchain
    rw [List.chain'_cons] at hchain
    obtain ⟨hpre, hchain⟩ := hchain
    have hstored := storedAt_getDelta b u c t x hpre
    have ihx := ih (getDelta b u c x t).2 (by rw [hstored]; exact hchain)
    rw [hstored] at ihx
    by_cases he : storedAt b (bufferKey u c t) = x
    · have hb : (getDelta b u c x t).2 = b := by simp [getDelta, he]
      rw [hb] at ihx
      simp only [runDeltas, List.getLastD_cons]
      have hd : (getDelta b u c x t).1.1 = none := by simp [getDelta, he]
      rw [hd] at *
      simpa [joinDeltas, he, hb] using ihx
    · have hlt : (storedAt b (bufferKey u c t)).length < x.length :=
        lt_of_le_of_ne hpre.length_le (fun hl => he (hpre.eq_of_length hl))
      have hx : storedAt b (bufferKey u c t) ++
          x.drop (storedAt b (bufferKey u c t)).length = x :=
        List.prefix_iff_eq_append.mp hpre
      have hd : (getDelta b u c x t).1.1 =
          some (x.drop (storedAt b (bufferKey u c t)).length) := by
        simp [getDelta, he, hlt]
      simp only [runDeltas, List.getLastD_cons]
      rw [hd]
      have hfm : List.filterMap id
          (some (x.drop (storedAt b (bufferKey u c t)).length) ::
            (runDeltas (getDelta b u c x t).2 u c t xs).1) =
          x.drop (storedAt b (bufferKey u c t)).length ::
            List.filterMap id (runDeltas (getDelta b u c x t).2 u c t xs).1 := by
        simp
      simp only [joinDeltas]
      rw [hfm, List.flatten_cons, ← List.append_assoc, hx]
      simpa [joinDeltas] using ihx

/-- **C4** — For every sequence of cumulative content strings on one
`(user, chat, channel)` key in which each string extends the previous one as
a prefix, the concatenation of the non-null deltas returned by
`StreamBuffer.get_delta` equals the final string; and whenever `get_delta`
is called with content strictly shorter than the stored buffer, the stored
buffer is replaced by that content and `(content, first=false)` is
returned. -/
theorem C4_stream_buffer (u c t : String) (b : StreamBufferState)
    (contents : List PyStr) (v content : PyStr) :
    (bufLookup b.buffers (bufferKey u c t) = none →
      List.Chain' (· <+: ·) contents →
      joinDeltas (runDeltas b u c t contents).1 = contents.getLastD []) ∧
    (bufLookup b.buffers (bufferKey u c t) = some v →
      content.length < v.length →
      getDelta b u c content t =
        ((some content, false), ⟨bufInsert b.buffers (bufferKey u c t) content⟩)) := by
  constructor
  · intro hfresh hchain
    have hstored : storedAt b (bufferKey u c t) = [] := by simp [storedAt, hfresh]
    have hchain' : List.Chain' (· <+: ·) (storedAt b (bufferKey u c t) :: contents) := by
      rw [hstored]
      cases contents with
      | nil => simp
      | cons x xs => exact List.chain'_cons.mpr ⟨List.nil_prefix, hchain⟩
    have h := joinDeltas_runDeltas u c t contents b hchain'
    rw [hstored] at h
    simpa using h
  · intro hstored hshort
    have hne : ¬ storedAt b (bufferKey u c t) = content := by
      intro he
      rw [storedAt, hstored] at he
      simp at he
      rw [he] at hshort
      exact lt_irrefl _ hshort
    have hvne : ¬ v = content := by
      intro he
      rw [he] at hshort
      exact lt_irrefl _ hshort
    have hv1 : ¬ v.length < content.length := by omega
    simp [getDelta, storedAt, hstored, hvne, hv1, hshort]

/-- Witness for C4: a fresh buffer fed the chain `"H"`, `"Hi"` concatenates
its deltas to `"Hi"`; a buffer holding `"xy"` given the shorter `"z"`
restarts. -/
theorem C4_stream_buffer_witness :
    joinDeltas (runDeltas ⟨[]⟩ "alice" "c1" "response" [['H'], ['H', 'i']]).1 =
      ['H', 'i'] ∧
    getDelta ⟨[("a:b:response", ['x', 'y'])]⟩ "a" "b" ['z'] "response" =
      ((some ['z'], false), ⟨[("a:b:response", ['z'])]⟩) :=
  ⟨by
    have h :=
      (C4_stream_buffer "alice" "c1" "response" ⟨[]⟩ [['H'], ['H', 'i']] [] []).1
    simpa using h (by rfl)
      (List.chain'_cons.mpr ⟨⟨['i'], rfl⟩, List.chain'_singleton _⟩),
   by
    have h :=
      (C4_stream_buffer "a" "b" "response" ⟨[("a:b:response", ['x', 'y'])]⟩ []
        ['x', 'y'] ['z']).2
    simpa using h (by rfl) (by decide)⟩

/-! ## C8 — `MCPClient.initialize` (`src/mcp/client.py`, lines 69-90). -/

/-- Embedding of `MCPClientConfig` (the two float timeouts are omitted; no
claim depends on them and they do not influence `initialize`'s branching). -/
structure MCPClientConfig where
  name : String
  transport : String := "sse"
  command : Option String := none
  args : Option (List String) := none
  env : Option (List (String × String)) := none
  cwd : Option String := none
  url : Option String := none
  authToken : Option String := none
deriving Repr

/-- Outcome of waiting (10 s) for the spawned connection task to signal
`self._connected`. -/
inductive ConnectOutcome where
  | connected
  | timedOut
deriving Repr, DecidableEq

/-- Model of `str.lower()`: Python lowercases per character. -/
def pyLower (s : String) : String :=
  String.mk (s.toList.map Char.toLower)

/-- The `NotImplementedError` message raised for the stdio transport (two
adjacent Python string literals, concatenated). -/
def stdioMessage : String :=
  "STDIO transport is not implemented yet. " ++
  "Please use the SSE transport until support is available."

/-- Embedding of `MCPClient.initialize`.  `Except.error` models a raised
exception escaping to the caller. -/
def mcpClientInit (cfg : MCPClientConfig) (conn : ConnectOutcome) :
    Except String Bool :=
  let transport := pyLower (if cfg.transport = "" then "sse" else cfg.transport)
  if transport = "stdio" then
    Except.error stdioMessage
  else if transport = "sse" ∨ transport = "streamable_http" then
    match conn with
    | .connected => Except.ok true
    | .timedOut => Except.ok false
  else
    Except.ok false

/-- **C8 (counterexample)** — For the unsupported `stdio` transport,
`initialize` raises `NotImplementedError` instead of returning `false`:
the claim that every unsupported transport is rejected by returning `false`
without an exception fails at `transport="stdio"`. -/
theorem C8_stdio_counterexample :
    mcpClientInit { name := "srv", transport := "stdio" } ConnectOutcome.connected =
      Except.error stdioMessage ∧
    mcpClientInit { name := "srv", transport := "stdio" } ConnectOutcome.connected ≠
      Except.ok false := by
  constructor
  · rfl
  · intro h
    rw [show mcpClientInit { name := "srv", transport := "stdio" }
        ConnectOutcome.connected = Except.error stdioMessage from rfl] at h
    exact Except.noConfusion h

/-- **C8 (amended)** — For every `MCPClientConfig` whose (lowercased)
transport is none of `sse`, `streamable_http`, `stdio`, `initialize`
returns `false` without raising; for the `stdio` transport it raises
`NotImplementedError` with a clear unsupported-transport message rather
than returning `false`. -/
theorem C8_unsupported_transport (cfg : MCPClientConfig) (conn : ConnectOutcome) :
    (pyLower (if cfg.transport = "" then "sse" else cfg.transport) ≠ "stdio" →
     pyLower (if cfg.transport = "" then "sse" else cfg.transport) ≠ "sse" →
     pyLower (if cfg.transport = "" then "sse" else cfg.transport) ≠ "streamable_http" →
      mcpClientInit cfg conn = Except.ok false) ∧
    (pyLower (if cfg.transport = "" then "sse" else cfg.transport) = "stdio" →
      mcpClientInit cfg conn = Except.error stdioMessage) := by
  constructor
  · intro h1 h2 h3
    simp [mcpClientInit, h1, h2, h3]
  · intro h
    simp [mcpClientInit, h]

/-- Witness for C8 at a concrete unknown transport and at `stdio`. -/
theorem C8_unsupported_transport_witness :
    mcpClientInit { name := "srv", transport := "grpc" } ConnectOutcome.connected =
      Except.ok false ∧
    mcpClientInit { name := "srv", transport := "STDIO" } ConnectOutcome.connected =
      Except.error stdioMessage :=
  ⟨(C8_unsupported_transport { name := "srv", transport := "grpc" }
      ConnectOutcome.connected).1 (by decide) (by decide) (by decide),
   (C8_unsupported_transport { name := "srv", transport := "STDIO" }
      ConnectOutcome.connected).2 (by decide)⟩

/-! ## C3 — `MCPClient.execute_json_rpc` (`src/mcp/client.py`, lines 199-228)
and the MCP operations it dispatches to (lines 235-320).

The underlying `ClientSession` calls are an oracle; `Except.error` on an
oracle field models the awaited call raising.  The result objects
(`CallToolResult`, …) are opaque `Json` values.  `_refresh_capabilities`
(lines 166-193) swallows every exception internally and only mutates caches,
so it cannot change `execute_json_rpc`'s return value and is not modelled. -/

/-- `str(x)` for values interpolated into error messages (container values
are only ever interpolated, never inspected, so their rendering is fixed). -/
def Json.pyStr : Json → String
  | .null => "None"
  | .bool true => "True"
  | .bool false => "False"
  | .num n => toString n
  | .str s => s
  | .arr _ => "[...]"
  | .obj _ => "\x7b...\x7d"

/-- The awaited MCP server session, as an oracle per operation. -/
structure McpOracle where
  callTool : Json → Json → Except String Json
  getPrompt : Json → Json → Except String Json
  readResource : Json → Except String Json
  listTools : Except String Json
  listPrompts : Except String Json
  listResources : Except String Json

/-- `params.get(k)`: raises `AttributeError` when `params` is not a dict. -/
def pyDictGet (v : Json) (k : String) : Except String (Option Json) :=
  match v with
  | .obj fs => Except.ok (Json.lookupKey fs k)
  | _ => Except.error ("AttributeError: object has no attribute get " ++ k)

/-- `x or ` an empty dict, as in `params.get("arguments") or ` the empty
dict. -/
def orEmptyObj (v : Option Json) : Json :=
  match v with
  | some p => if Json.truthy p then p else Json.obj []
  | none => Json.obj []

/-- Embedding of `MCPClient.call_tool`: `.inl` is the native result, `.inr`
a textual error value, `Except.error` a raised exception. -/
def call_tool (name : String) (hasSession : Bool) (oracle : McpOracle)
    (params : Json) : Except String (Json ⊕ String) := do
  if !hasSession then
    throw ("RuntimeError: Client " ++ name ++ " not initialized")
  let nameVal ← pyDictGet params "name"
  match nameVal with
  | some nv =>
    if Json.truthy nv then
      let argVal ← pyDictGet params "arguments"
      match oracle.callTool nv (orEmptyObj argVal) with
      | .ok r => pure (Sum.inl r)
      | .error e => pure (Sum.inr ("Tool error " ++ Json.pyStr nv ++ ": " ++ e))
    else throw "ValueError: Missing parameter 'name' for tools/call"
  | none => throw "ValueError: Missing parameter 'name' for tools/call"

/-- Embedding of `MCPClient.get_prompt`. -/
def get_prompt (name : String) (hasSession : Bool) (oracle : McpOracle)
    (params : Json) : Except String (Json ⊕ String) := do
  if !hasSession then
    throw ("RuntimeError: Client " ++ name ++ " not initialized")
  let nameVal ← pyDictGet params "name"
  match nameVal with
  | some nv =>
    if Json.truthy nv then
      let argVal ← pyDictGet params "arguments"
      match oracle.getPrompt nv (orEmptyObj argVal) with
      | .ok r => pure (Sum.inl r)
      | .error e => pure (Sum.inr ("Prompt error " ++ Json.pyStr nv ++ ": " ++ e))
    else throw "ValueError: Missing parameter 'name' for prompts/get"
  | none => throw "ValueError: Missing parameter 'name' for prompts/get"

/-- Embedding of `MCPClient.read_resource`. -/
def read_resource (name : String) (hasSession : Bool) (oracle : McpOracle)
    (params : Json) : Except String (Json ⊕ String) := do
  if !hasSession then
    throw ("RuntimeError: Client " ++ name ++ " not initialized")
  let uriVal ← pyDictGet params "uri"
  match uriVal with
  | some uv =>
    if Json.truthy uv then
      match oracle.readResource uv with
      | .ok r => pure (Sum.inl r)
      | .error e => pure (Sum.inr ("Read error " ++ Json.pyStr uv ++ ": " ++ e))
    else throw "ValueError: Missing parameter 'uri' for resources/read"
  | none => throw "ValueError: Missing parameter 'uri' for resources/read"

/-- Embedding of `MCPClient.list_tools` (cache writes are state-only). -/
def list_tools (name : String) (hasSession : Bool) (oracle : McpOracle) :
    Except String (Json ⊕ String) :=
  if !hasSession then
    Except.error ("RuntimeError: Client " ++ name ++ " not initialized")
  else
    match oracle.listTools with
    | .ok r => Except.ok (Sum.inl r)
    | .error e => Except.ok (Sum.inr ("Error in list_tools: " ++ e))

/-- Embedding of `MCPClient.list_prompts`. -/
def list_prompts (name : String) (hasSession : Bool) (oracle : McpOracle) :
    Except String (Json ⊕ String) :=
  if !hasSession then
    Except.error ("RuntimeError: Client " ++ name ++ " not initialized")
  else
    match oracle.listPrompts with
    | .ok r => Except.ok (Sum.inl r)
    | .error e => Except.ok (Sum.inr ("Error in list_prompts: " ++ e))

/-- Embedding of `MCPClient.list_resources`. -/
def list_resources (name : String) (hasSession : Bool) (oracle : McpOracle) :
    Except String (Json ⊕ String) :=
  if !hasSession then
    Except.error ("RuntimeError: Client " ++ name ++ " not initialized")
  else
    match oracle.listResources with
    | .ok r => Except.ok (Sum.inl r)
    | .error e => Except.ok (Sum.inr ("Error in list_resources: " ++ e))

/-- The `try`/`except` around the dispatched call inside `execute_json_rpc`:
any raised exception is folded into a textual value. -/
def foldRpcException (r : Except String (Json ⊕ String)) : Json ⊕ String :=
  match r with
  | .ok v => v
  | .error e => Sum.inr ("JSON-RPC error: " ++ e)

/-- Embedding of `MCPClient.execute_json_rpc`.  The only way out of the
`Except.ok` envelope is `methods.get(method_name)` with an unhashable key
(`TypeError` is raised before the `try` block, line 218). -/
def execute_json_rpc (name : String) (hasSession : Bool) (oracle : McpOracle)
    (jsonRpc : List (String × Json)) : Except String (Json ⊕ String) :=
  if !hasSession then Except.ok (Sum.inr ("Client " ++ name ++ " not initialized"))
  else
    match Json.lookupKey jsonRpc "method" with
    | none => Except.ok (Sum.inr "Missing 'method' in JSON-RPC request")
    | some mv =>
      if !Json.truthy mv then
        Except.ok (Sum.inr "Missing 'method' in JSON-RPC request")
      else
        let params := orEmptyObj (Json.lookupKey jsonRpc "params")
        if Json.unhashable mv then
          Except.error "TypeError: unhashable type in method-table lookup"
        else
          match mv with
          | .str m =>
            if m = "tools/call" then
              Except.ok (foldRpcException (call_tool name hasSession oracle params))
            else if m = "prompts/get" then
              Except.ok (foldRpcException (get_prompt name hasSession oracle params))
            else if m = "resources/read" then
              Except.ok (foldRpcException (read_resource name hasSession oracle params))
            else if m = "tools/list" then
              Except.ok (foldRpcException (list_tools name hasSession oracle))
            else if m = "prompts/list" then
              Except.ok (foldRpcException (list_prompts name hasSession oracle))
            else if m = "resources/list" then
              Except.ok (foldRpcException (list_resources name hasSession oracle))
            else Except.ok (Sum.inr ("Unknown MCP method: " ++ m))
          | _ => Except.ok (Sum.inr ("Unknown MCP method: " ++ Json.pyStr mv))

/-- The `method` field of a request is a usable dict key: absent, falsy, or
hashable.  Every JSON-RPC request mapping (whose `method`, per the data
model, is a string when present) satisfies this. -/
def methodKeyOk (jsonRpc : List (String × Json)) : Bool :=
  match Json.lookupKey jsonRpc "method" with
  | some mv => !(Json.truthy mv && Json.unhashable mv)
  | none => true


/-- `r` is a returned value rather than a raised exception. -/
def returnsValue (r : Except String (Json ⊕ String)) : Bool :=
  match r with
  | .ok _ => true
  | .error _ => false

theorem execute_json_rpc_returnsValue (name : String) (hs : Bool)
    (oracle : McpOracle) (jsonRpc : List (String × Json))
    (hkey : methodKeyOk jsonRpc = true) :
    returnsValue (execute_json_rpc name hs oracle jsonRpc) = true := by
  unfold execute_json_rpc
  split
  · rfl
  · split
    · rfl
    · rename_i mv hm
      split
      · rfl
      · rename_i ht
        split
        · rename_i hun
          exfalso
          rw [methodKeyOk, hm] at hkey
          simp only [Bool.not_eq_true] at ht
          simp [hun, Bool.not_eq_true', ht] at hkey
        · split
          all_goals repeat' split
          all_goals rfl

/-- **C3** — For every JSON-RPC request mapping given to
`MCPClient.execute_json_rpc`, the call returns a value and never raises an
exception: a textual error when the `method` field is missing (or falsy) or
unrecognized or when the dispatched operation throws, and the MCP result
object on success. -/
theorem C3_execute_json_rpc_total (name : String) (hs : Bool) (oracle : McpOracle)
    (jsonRpc : List (String × Json)) (hkey : methodKeyOk jsonRpc = true) :
    returnsValue (execute_json_rpc name hs oracle jsonRpc) = true ∧
    (hs = true → Json.lookupKey jsonRpc "method" = none →
      execute_json_rpc name hs oracle jsonRpc =
        Except.ok (Sum.inr "Missing 'method' in JSON-RPC request")) ∧
    (∀ mv, hs = true → Json.lookupKey jsonRpc "method" = some mv →
      Json.truthy mv = false →
      execute_json_rpc name hs oracle jsonRpc =
        Except.ok (Sum.inr "Missing 'method' in JSON-RPC request")) ∧
    (∀ m, hs = true → Json.lookupKey jsonRpc "method" = some (Json.str m) →
      m ∉ (["tools/call", "prompts/get", "resources/read",
            "tools/list", "prompts/list", "resources/list"] : List String) →
      m ≠ "" →
      execute_json_rpc name hs oracle jsonRpc =
        Except.ok (Sum.inr ("Unknown MCP method: " ++ m))) ∧
    (∀ e, hs = true → Json.lookupKey jsonRpc "method" = some (Json.str "tools/call") →
      call_tool name hs oracle (orEmptyObj (Json.lookupKey jsonRpc "params")) =
        Except.error e →
      execute_json_rpc name hs oracle jsonRpc =
        Except.ok (Sum.inr ("JSON-RPC error: " ++ e))) ∧
    (∀ r, hs = true → Json.lookupKey jsonRpc "method" = some (Json.str "tools/call") →
      call_tool name hs oracle (orEmptyObj (Json.lookupKey jsonRpc "params")) =
        Except.ok r →
      execute_json_rpc name hs oracle jsonRpc = Except.ok r) := by
  refine ⟨execute_json_rpc_returnsValue name hs oracle jsonRpc hkey,
    ?_, ?_, ?_, ?_, ?_⟩
  · intro hhs hm
    subst hhs
    simp [execute_json_rpc, hm]
  · intro mv hhs hm ht
    subst hhs
    simp [execute_json_rpc, hm, ht]
  · intro m hhs hm hmem hne
    subst hhs
    simp only [List.mem_cons, List.not_mem_nil, or_false, not_or] at hmem
    obtain ⟨h1, h2, h3, h4, h5, h6⟩ := hmem
    simp [execute_json_rpc, hm, Json.truthy, Json.unhashable, hne,
      h1, h2, h3, h4, h5, h6]
  · intro e hhs hm herr
    subst hhs
    simp [execute_json_rpc, hm, Json.truthy, Json.unhashable, foldRpcException, herr]
  · intro r hhs hm hok
    subst hhs
    simp [execute_json_rpc, hm, Json.truthy, Json.unhashable, foldRpcException, hok]

/-- Witness for C3: a concrete `tools/call` request against an oracle whose
tool call succeeds, and a request with an unknown method. -/
theorem C3_execute_json_rpc_total_witness :
    execute_json_rpc "mcp_a:b" true
      { callTool := fun _ _ => Except.ok (Json.str "res"),
        getPrompt := fun _ _ => Except.ok Json.null,
        readResource := fun _ => Except.ok Json.null,
        listTools := Except.ok Json.null,
        listPrompts := Except.ok Json.null,
        listResources := Except.ok Json.null }
      [("jsonrpc", Json.str "2.0"), ("id", Json.num 1),
       ("method", Json.str "tools/call"),
       ("params", Json.obj [("name", Json.str "echo"),
                            ("arguments", Json.obj [])])] =
      Except.ok (Sum.inl (Json.str "res")) ∧
    execute_json_rpc "mcp_a:b" true
      { callTool := fun _ _ => Except.ok (Json.str "res"),
        getPrompt := fun _ _ => Except.ok Json.null,
        readResource := fun _ => Except.ok Json.null,
        listTools := Except.ok Json.null,
        listPrompts := Except.ok Json.null,
        listResources := Except.ok Json.null }
      [("method", Json.str "nope/nope")] =
      Except.ok (Sum.inr ("Unknown MCP method: " ++ "nope/nope")) :=
  ⟨(C3_execute_json_rpc_total "mcp_a:b" true _ _ (by rfl)).2.2.2.2.2
     (Sum.inl (Json.str "res")) rfl (by rfl) (by rfl),
   (C3_execute_json_rpc_total "mcp_a:b" true _ _ (by rfl)).2.2.2.1
     "nope/nope" rfl (by rfl) (by decide) (by decide)⟩

/-! ## C6 — `OllamaCallTranslator.to_json_rpc`
(`src/adapters/ollama/ollama_call_translator.py`, lines 113-147) and
`MCPAdapter.adapt_model_call_to_mcp` (`src/adapters/adapter.py`, lines
68-83).

The translator state keeps only the capability keys: `to_json_rpc` reads
nothing but key membership from `_tools_by_name` / `_resources_by_uri` /
`_ollama_name_index`.  `json.loads` and `difflib.get_close_matches`
formatting are oracles; payloads are `Json` values (pydantic objects with a
`model_dump`/`tool_calls` attribute are outside the modelled domain). -/

/-- Key sets of `OllamaCallTranslator`'s capability caches. -/
structure TranslatorState where
  toolsByName : List String
  resourcesByUri : List String
  nameIndex : List (String × (String × String))

/-- First-match lookup in `_ollama_name_index`. -/
def idxLookup : List (String × (String × String)) → String → Option (String × String)
  | [], _ => none
  | (k, v) :: rest, key => if k = key then some v else idxLookup rest key

/-- Python standard-library collaborators used by the translator. -/
structure PyOracles where
  jsonLoads : String → Option Json
  closeMatchHint : String → List String → String

/-- Embedding of `_ensure_arguments_dict` (argument absent = Python `None`). -/
def ensure_arguments_dict (jsonLoads : String → Option Json) :
    Option Json → List (String × Json)
  | none => []
  | some v =>
    match v with
    | .obj fs => fs
    | .null => []
    | .str s =>
      if s = "" then []
      else
        match jsonLoads s with
        | some (.obj fs) => fs
        | some parsed => [("_", parsed)]
        | none => [("_raw", Json.str s)]
    | .arr xs => [("_", Json.arr xs)]
    | .num n => [("_", Json.num n)]
    | .bool b => [("_", Json.bool b)]

/-- Embedding of `_make_rpc`. -/
def make_rpc (kind key : String) (arguments : List (String × Json))
    (rpcId : Json) : Except String Json :=
  if kind = "tool" then
    Except.ok (Json.obj
      [("jsonrpc", Json.str "2.0"), ("id", rpcId),
       ("method", Json.str "tools/call"),
       ("params", Json.obj [("name", Json.str key),
                            ("arguments", Json.obj arguments)])])
  else if kind = "resource" then
    Except.ok (Json.obj
      [("jsonrpc", Json.str "2.0"), ("id", rpcId),
       ("method", Json.str "resources/read"),
       ("params", Json.obj [("uri", Json.str key)])])
  else Except.error ("ValueError: Unknown capability kind: " ++ kind)

/-- The `_no_match_error` message (fuzzy suggestions via the oracle). -/
def noMatchMsg (st : TranslatorState) (py : PyOracles) (nv : Json) : String :=
  let candidates := st.nameIndex.map (fun p => p.1) ++ st.toolsByName ++ st.resourcesByUri
  "ValueError: Ollama tool_call '" ++ Json.pyStr nv ++
    "' could not be mapped to an MCP capability" ++
    py.closeMatchHint (Json.pyStr nv) candidates ++ "."

/-- Embedding of `OllamaCallTranslator.to_json_rpc`. -/
def to_json_rpc (st : TranslatorState) (py : PyOracles) (toolCall : Json)
    (rpcId : Json) : Except String Json := do
  let base : Json := if Json.truthy toolCall then toolCall else Json.obj []
  let fnGot ← pyDictGet base "function"
  let fnPayload : Json :=
    match fnGot with
    | some v => if Json.truthy v then v else Json.obj []
    | none => Json.obj []
  let nameGot ← pyDictGet fnPayload "name"
  match nameGot with
  | none => throw "ValueError: Invalid tool_call payload: missing function.name"
  | some nv =>
    if !Json.truthy nv then
      throw "ValueError: Invalid tool_call payload: missing function.name"
    else do
      let argGot ← pyDictGet fnPayload "arguments"
      let arguments := ensure_arguments_dict py.jsonLoads argGot
      if Json.unhashable nv then
        throw "TypeError: unhashable type in index lookup"
      else
        let tryUri : Except String Json :=
          match Json.lookupKey arguments "uri" with
          | some u =>
            if st.resourcesByUri.contains (Json.pyStr u) then
              make_rpc "resource" (Json.pyStr u) arguments rpcId
            else throw (noMatchMsg st py nv)
          | none => throw (noMatchMsg st py nv)
        match nv with
        | .str s =>
          match idxLookup st.nameIndex s with
          | some kk => make_rpc kk.1 kk.2 arguments rpcId
          | none =>
            if st.toolsByName.contains s then
              make_rpc "tool" s arguments rpcId
            else if st.resourcesByUri.contains s then
              make_rpc "resource" s arguments rpcId
            else tryUri
        | _ => tryUri

/-- Coercion of each raw call (`model_dump` objects excluded from the
domain): dicts pass, anything else raises `ValueError`. -/
def normalizeCalls : List Json → Except String (List Json)
  | [] => Except.ok []
  | c :: cs =>
    match c with
    | .obj fs => do
      let rest ← normalizeCalls cs
      pure (Json.obj fs :: rest)
    | _ => Except.error ("ValueError: Unsupported tool_call entry: " ++ Json.pyStr c)

/-- Embedding of `extract_tool_calls` over `Json` payloads. -/
def extract_tool_calls (payload : Json) : Except String (List Json) :=
  let rawCalls : List Json :=
    match payload with
    | .obj fs =>
      if Json.isStrVal (Json.lookupKey fs "type") "function" &&
          (Json.lookupKey fs "function").isSome then
        [Json.obj fs]
      else if (Json.lookupKey fs "function").isSome then
        [Json.obj fs]
      else
        let candidate : Json :=
          match Json.lookupKey fs "message" with
          | some m => m
          | none => Json.obj fs
        let raw1 : List Json :=
          match candidate with
          | .obj c =>
            match Json.lookupKey c "tool_calls" with
            | some (.arr l) => l
            | _ => []
          | _ => []
        match Json.lookupKey fs "tool_calls" with
        | some (.arr l) => l
        | _ => raw1
    | .arr xs => xs
    | _ => []
  normalizeCalls rawCalls

/-- Embedding of `_describe_tool_call`. -/
def describe_tool_call (call : Json) : String :=
  match call with
  | .obj fs =>
    match Json.lookupKey fs "function" with
    | some (.obj gs) =>
      "function:" ++
        (match Json.lookupKey gs "name" with
         | some n => if Json.truthy n then Json.pyStr n else "<unnamed>"
         | none => "<unnamed>")
    | _ => Json.pyStr (Json.obj fs)
  | _ => Json.pyStr call

/-- Embedding of `_format_tool_mapping_failure`; `toolNames` is the sorted
set of names drawn from `to_backend_tools()`. -/
def format_tool_mapping_failure (toolNames : List String)
    (failures : List String) : String :=
  if failures.isEmpty then ""
  else
    let available := String.intercalate ", " (toolNames.filter (fun n => n ≠ ""))
    let suffix := if available = "" then "" else " Available tools: " ++ available
    let details := String.intercalate " ; " failures
    "Requested tool or resource could not be mapped. " ++
      "Check the currently available tools; availability can change during the session." ++
      suffix ++ " | Details: " ++ details

/-- The translation loop of `adapt_model_call_to_mcp`
(`enumerate(tool_calls, start=1)`): returns
`(requests, per-call failures, ghost list of the rpc ids handed to the
translator, one per extracted call)`. -/
def adaptLoop (st : TranslatorState) (py : PyOracles) :
    List Json → Nat → List Json × List String × List Nat
  | [], _ => ([], [], [])
  | c :: cs, idx =>
    let step := to_json_rpc st py c (Json.num idx)
    let rest := adaptLoop st py cs (idx + 1)
    match step with
    | .ok r => (r :: rest.1, rest.2.1, idx :: rest.2.2)
    | .error e =>
      (rest.1, (describe_tool_call c ++ " -> " ++ e) :: rest.2.1, idx :: rest.2.2)

/-- Embedding of `MCPAdapter.adapt_model_call_to_mcp` (an extraction failure
propagates; it is raised outside any `try`). -/
def adapt_model_call_to_mcp (st : TranslatorState) (py : PyOracles)
    (toolNames : List String) (payload : Json) :
    Except String (List Json × Option String × List Nat) := do
  let calls ← extract_tool_calls payload
  let res := adaptLoop st py calls 1
  let errMsg :=
    if res.2.1.isEmpty then none
    else some (format_tool_mapping_failure toolNames res.2.1)
  pure (res.1, errMsg, res.2.2)

/-- The exact JSON-RPC object the spec requires for a resource read. -/
def resourceRpc (uri : String) (rpcId : Json) : Json :=
  Json.obj [("jsonrpc", Json.str "2.0"), ("id", rpcId),
            ("method", Json.str "resources/read"),
            ("params", Json.obj [("uri", Json.str uri)])]

theorem adaptLoop_ids (st : TranslatorState) (py : PyOracles) :
    ∀ (calls : List Json) (i : Nat),
      (adaptLoop st py calls i).2.2 = List.range' i calls.length := by
  intro calls
  induction calls with
  | nil => intro i; simp [adaptLoop]
  | cons c cs ih =>
    intro i
    simp only [adaptLoop, List.length_cons, List.range'_succ]
    cases to_json_rpc st py c (Json.num i) with
    | ok r => simp [ih]
    | error e => simp [ih]

theorem lookupKey_ne_nil {fields : List (String × Json)} {k : String} {v : Json}
    (h : Json.lookupKey fields k = some v) : fields ≠ [] := by
  intro he
  rw [he] at h
  exact Option.noConfusion h

/-- **C6** — For every provider tool call whose name resolves to a resource
(via the reverse index, a direct hit in the resource index, or a `uri`
argument naming a known resource), the emitted JSON-RPC request is exactly
`{"jsonrpc":"2.0","id":<rpc_id>,"method":"resources/read","params":{"uri":<uri>}}`
with the call's arguments dropped; and across one `adapt_model_call_to_mcp`
invocation the rpc ids assigned to the extracted calls ascend starting
at 1. -/
theorem C6_resource_rpc_emission (st : TranslatorState) (py : PyOracles)
    (toolNames : List String) (fs gs : List (String × Json)) (nm : String)
    (rpcId : Json) (k u : String)
    (hfn : Json.lookupKey fs "function" = some (Json.obj gs))
    (hname : Json.lookupKey gs "name" = some (Json.str nm))
    (hnm : nm ≠ "") :
    (idxLookup st.nameIndex nm = some ("resource", k) →
      to_json_rpc st py (Json.obj fs) rpcId = Except.ok (resourceRpc k rpcId)) ∧
    (idxLookup st.nameIndex nm = none →
      st.toolsByName.contains nm = false →
      st.resourcesByUri.contains nm = true →
      to_json_rpc st py (Json.obj fs) rpcId = Except.ok (resourceRpc nm rpcId)) ∧
    (idxLookup st.nameIndex nm = none →
      st.toolsByName.contains nm = false →
      st.resourcesByUri.contains nm = false →
      Json.lookupKey (ensure_arguments_dict py.jsonLoads
        (Json.lookupKey gs "arguments")) "uri" = some (Json.str u) →
      st.resourcesByUri.contains u = true →
      to_json_rpc st py (Json.obj fs) rpcId = Except.ok (resourceRpc u rpcId)) ∧
    (∀ (payload : Json) (calls : List Json),
      extract_tool_calls payload = Except.ok calls →
      ∀ reqs err ids,
        adapt_model_call_to_mcp st py toolNames payload =
          Except.ok (reqs, err, ids) →
        ids = List.range' 1 calls.length) := by
  have hfs : Json.truthy (Json.obj fs) = true := by
    cases fs with
    | nil => simp [Json.lookupKey] at hfn
    | cons a l => rfl
  have hgs : Json.truthy (Json.obj gs) = true := by
    cases gs with
    | nil => simp [Json.lookupKey] at hname
    | cons a l => rfl
  have hnmt : Json.truthy (Json.str nm) = true := by simp [Json.truthy, hnm]
  refine ⟨?_, ?_, ?_, ?_⟩
  · intro hidx
    simp [to_json_rpc, hfs, pyDictGet, hfn, hgs, hname, hnmt, Json.unhashable,
      hidx, make_rpc, resourceRpc, bind, Except.bind]
  · intro hidx htool hres
    have htool' : nm ∉ st.toolsByName := by simpa using htool
    have hres' : nm ∈ st.resourcesByUri := by simpa using hres
    simp [to_json_rpc, hfs, pyDictGet, hfn, hgs, hname, hnmt, Json.unhashable,
      hidx, htool', hres', make_rpc, resourceRpc, bind, Except.bind]
  · intro hidx htool hres huri hknown
    have htool' : nm ∉ st.toolsByName := by simpa using htool
    have hres' : nm ∉ st.resourcesByUri := by simpa using hres
    have hknown' : u ∈ st.resourcesByUri := by simpa using hknown
    simp [to_json_rpc, hfs, pyDictGet, hfn, hgs, hname, hnmt, Json.unhashable,
      hidx, htool', hres', huri, hknown', make_rpc, resourceRpc, bind, Except.bind,
      Json.pyStr]
  · intro payload calls hext reqs err ids hadapt
    rw [adapt_model_call_to_mcp, hext] at hadapt
    simp only [bind, Except.bind, pure, Except.pure] at hadapt
    have hids := adaptLoop_ids st py calls 1
    cases hadapt
    exact hids

/-- Witness for C6: a reverse-index resource hit emits the exact
`resources/read` request (arguments dropped), and a two-call payload is
translated with rpc ids `[1, 2] = range' 1 2`. -/
theorem C6_resource_rpc_emission_witness :
    to_json_rpc
      ⟨["echo"], ["file://a.md"],
       [("echo", ("tool", "echo")), ("file://a.md", ("resource", "file://a.md"))]⟩
      ⟨fun _ => none, fun _ _ => ""⟩
      (Json.obj [("function", Json.obj
        [("name", Json.str "file://a.md"),
         ("arguments", Json.obj [("x", Json.num 1)])])])
      (Json.num 7) =
      Except.ok (resourceRpc "file://a.md" (Json.num 7)) ∧
    adapt_model_call_to_mcp
      ⟨["echo"], ["file://a.md"],
       [("echo", ("tool", "echo")), ("file://a.md", ("resource", "file://a.md"))]⟩
      ⟨fun _ => none, fun _ _ => ""⟩ []
      (Json.obj [("tool_calls", Json.arr
        [Json.obj [("function", Json.obj [("name", Json.str "echo")])],
         Json.obj [("function", Json.obj [("name", Json.str "file://a.md")])]])]) =
      Except.ok
        ([Json.obj
            [("jsonrpc", Json.str "2.0"), ("id", Json.num 1),
             ("method", Json.str "tools/call"),
             ("params", Json.obj [("name", Json.str "echo"),
                                  ("arguments", Json.obj [])])],
          resourceRpc "file://a.md" (Json.num 2)],
         none, List.range' 1 2) := by
  constructor
  · exact (C6_resource_rpc_emission
      ⟨["echo"], ["file://a.md"],
       [("echo", ("tool", "echo")), ("file://a.md", ("resource", "file://a.md"))]⟩
      ⟨fun _ => none, fun _ _ => ""⟩ []
      [("function", Json.obj
        [("name", Json.str "file://a.md"),
         ("arguments", Json.obj [("x", Json.num 1)])])]
      [("name", Json.str "file://a.md"),
       ("arguments", Json.obj [("x", Json.num 1)])]
      "file://a.md" (Json.num 7) "file://a.md" "unused"
      (by rfl) (by rfl) (by decide)).1 (by rfl)
  · have h := (C6_resource_rpc_emission
      ⟨["echo"], ["file://a.md"],
       [("echo", ("tool", "echo")), ("file://a.md", ("resource", "file://a.md"))]⟩
      ⟨fun _ => none, fun _ _ => ""⟩ []
      [("function", Json.obj [("name", Json.str "x")])]
      [("name", Json.str "x")] "x" Json.null "k" "u"
      (by rfl) (by rfl) (by decide)).2.2.2
      (Json.obj [("tool_calls", Json.arr
        [Json.obj [("function", Json.obj [("name", Json.str "echo")])],
         Json.obj [("function", Json.obj [("name", Json.str "file://a.md")])]])])
      [Json.obj [("function", Json.obj [("name", Json.str "echo")])],
       Json.obj [("function", Json.obj [("name", Json.str "file://a.md")])]]
      (by rfl)
      [Json.obj
        [("jsonrpc", Json.str "2.0"), ("id", Json.num 1),
         ("method", Json.str "tools/call"),
         ("params", Json.obj [("name", Json.str "echo"),
                              ("arguments", Json.obj [])])],
       resourceRpc "file://a.md" (Json.num 2)]
      none [1, 2] (by rfl)
    rw [show (List.range' 1 2 : List Nat) = [1, 2] from h.symm]
    rfl

/-! ## C7, C10 — `SessionAwareSamplingHandler.sample`
(`src/mcp/sampling.py`, lines 56-157).

The gateway's counters are embedded together with two ghost fields:
`admitted` counts semaphore admissions (the spec's `admitted_total`) and
`modelCalls` counts started model calls.  The model runtime is an oracle
outcome; `asyncio.CancelledError` re-raising is the `raisedCancel` result. -/

/-- `mcp.types.INVALID_REQUEST`. -/
def INVALID_REQUEST : Int := -32600

/-- `mcp.types.INTERNAL_ERROR`. -/
def INTERNAL_ERROR : Int := -32603

/-- Generic first-match association lookup (`dict.get`). -/
def assocLookup {α : Type} : List (String × α) → String → Option α
  | [], _ => none
  | (k, v) :: rest, key => if k = key then some v else assocLookup rest key

/-- Model of `str.strip()`. -/
def pyStrip (s : String) : String :=
  String.mk (((s.toList.dropWhile Char.isWhitespace).reverse.dropWhile
    Char.isWhitespace).reverse)

/-- An Ollama provider-native message (`ollama.Message`). -/
structure OllamaMsg where
  role : String
  content : String
  images : Option (List String) := none
  toolName : Option String := none
deriving Repr, DecidableEq

/-- `types.SamplingMessage.content`: text or any non-text content block. -/
inductive SamplingContent where
  | text (s : String)
  | other
deriving Repr, DecidableEq

/-- `types.SamplingMessage`. -/
structure SamplingMessage where
  role : String
  content : SamplingContent
deriving Repr, DecidableEq

/-- `types.CreateMessageRequestParams` (the fields `sample` reads). -/
structure SamplingParams where
  systemPrompt : Option String := none
  messages : List SamplingMessage
deriving Repr, DecidableEq

/-- The gateway's counters plus ghost instrumentation. -/
structure GatewayState where
  inflight : Nat
  completed : Nat
  rejected : Nat
  admitted : Nat
  modelCalls : Nat
deriving Repr, DecidableEq

/-- What `sample` looks up about a session. -/
structure SessionView where
  active : Bool
  provider : String
  hasClient : Bool
  model : String
deriving Repr, DecidableEq

/-- Oracle outcome of the awaited `agent.client.chat` call. -/
inductive ModelOutcome where
  | success (content : String)
  | timeout
  | cancelled
  | failure (msg : String)
deriving Repr, DecidableEq

/-- Return value of `sample`: a `CreateMessageResult`, an `ErrorData`, or a
re-raised `CancelledError`. -/
inductive SampleResult where
  | ok (role : String) (text : String) (model : String) (stopReason : Option String)
  | errorData (code : Int) (message : String)
  | raisedCancel
deriving Repr, DecidableEq

/-- Per-message conversion inside `_to_ollama_messages`. -/
def convSamplingMsgs : List SamplingMessage → Except String (List OllamaMsg)
  | [] => Except.ok []
  | m :: ms =>
    match m.content with
    | .text s => do
      let rest ← convSamplingMsgs ms
      pure ({ role := m.role, content := s } :: rest)
    | .other => Except.error "Sampling expects TextContent only"

/-- Embedding of `_to_ollama_messages` (`ValueError` = `Except.error`). -/
def to_ollama_messages (params : SamplingParams) : Except String (List OllamaMsg) :=
  let base : List OllamaMsg :=
    match params.systemPrompt with
    | some sp => if sp ≠ "" then [{ role := "system", content := sp }] else []
    | none => []
  if params.messages.isEmpty then
    Except.error "Sampling expects at least one message"
  else do
    let rest ← convSamplingMsgs params.messages
    pure (base ++ rest)

/-- Embedding of `SessionAwareSamplingHandler.sample`.  The admitted region
models `async with self._global_sem`: the `try`'s `except` arms bump
`rejected`, and the `finally` always decrements `inflight` and increments
`completed` — on failure arms too. -/
def sample (sessions : List (String × SessionView)) (sessionKey : String)
    (params : SamplingParams) (mo : ModelOutcome) (g : GatewayState) :
    SampleResult × GatewayState :=
  let unknown :=
    (SampleResult.errorData INTERNAL_ERROR
      ("Sampling failed: unknown or inactive session '" ++ sessionKey ++ "'"),
     { g with rejected := g.rejected + 1 })
  match assocLookup sessions sessionKey with
  | none => unknown
  | some s =>
    if !s.active then unknown
    else if s.provider ≠ "ollama" then
      (SampleResult.errorData INTERNAL_ERROR
        ("Sampling not supported for provider '" ++ s.provider ++ "'"),
       { g with rejected := g.rejected + 1 })
    else
      match to_ollama_messages params with
      | .error e =>
        (SampleResult.errorData INVALID_REQUEST e,
         { g with rejected := g.rejected + 1 })
      | .ok _msgs =>
        if !s.hasClient then
          (SampleResult.errorData INTERNAL_ERROR "Sampling failed: agent has no client",
           { g with rejected := g.rejected + 1 })
        else
          let g1 := { g with admitted := g.admitted + 1,
                             inflight := g.inflight + 1,
                             modelCalls := g.modelCalls + 1 }
          match mo with
          | .success content =>
            ((SampleResult.ok "assistant" (pyStrip content) s.model none),
             { g1 with inflight := g1.inflight - 1, completed := g1.completed + 1 })
          | .timeout =>
            (SampleResult.errorData INTERNAL_ERROR "Sampling timed out",
             { g1 with rejected := g1.rejected + 1,
                       inflight := g1.inflight - 1, completed := g1.completed + 1 })
          | .cancelled =>
            (SampleResult.raisedCancel,
             { g1 with rejected := g1.rejected + 1,
                       inflight := g1.inflight - 1, completed := g1.completed + 1 })
          | .failure msg =>
            (SampleResult.errorData INTERNAL_ERROR ("Sampling failed: " ++ msg),
             { g1 with rejected := g1.rejected + 1,
                       inflight := g1.inflight - 1, completed := g1.completed + 1 })

/-- **C7 (counterexample)** — At a timeout on an admitted call, `sample`
increments BOTH `rejected` (in the `except` arm) and `completed` (in the
`finally`), so "exactly one of the completed and rejected counters is
incremented per call" and `inflight + rejected + completed = admitted_total`
both fail, from zero counters on an active ollama session. -/
theorem C7_counters_counterexample :
    (sample [("a:b", ⟨true, "ollama", true, "m"⟩)] "a:b"
        ⟨none, [⟨"user", SamplingContent.text "hi"⟩]⟩
        ModelOutcome.timeout ⟨0, 0, 0, 0, 0⟩).2 =
      ⟨0, 1, 1, 1, 1⟩ ∧
    ¬ (((sample [("a:b", ⟨true, "ollama", true, "m"⟩)] "a:b"
          ⟨none, [⟨"user", SamplingContent.text "hi"⟩]⟩
          ModelOutcome.timeout ⟨0, 0, 0, 0, 0⟩).2.completed = 1 ∧
        (sample [("a:b", ⟨true, "ollama", true, "m"⟩)] "a:b"
          ⟨none, [⟨"user", SamplingContent.text "hi"⟩]⟩
          ModelOutcome.timeout ⟨0, 0, 0, 0, 0⟩).2.rejected = 0) ∨
       ((sample [("a:b", ⟨true, "ollama", true, "m"⟩)] "a:b"
          ⟨none, [⟨"user", SamplingContent.text "hi"⟩]⟩
          ModelOutcome.timeout ⟨0, 0, 0, 0, 0⟩).2.completed = 0 ∧
        (sample [("a:b", ⟨true, "ollama", true, "m"⟩)] "a:b"
          ⟨none, [⟨"user", SamplingContent.text "hi"⟩]⟩
          ModelOutcome.timeout ⟨0, 0, 0, 0, 0⟩).2.rejected = 1)) ∧
    ¬ ((sample [("a:b", ⟨true, "ollama", true, "m"⟩)] "a:b"
          ⟨none, [⟨"user", SamplingContent.text "hi"⟩]⟩
          ModelOutcome.timeout ⟨0, 0, 0, 0, 0⟩).2.inflight +
        (sample [("a:b", ⟨true, "ollama", true, "m"⟩)] "a:b"
          ⟨none, [⟨"user", SamplingContent.text "hi"⟩]⟩
          ModelOutcome.timeout ⟨0, 0, 0, 0, 0⟩).2.rejected +
        (sample [("a:b", ⟨true, "ollama", true, "m"⟩)] "a:b"
          ⟨none, [⟨"user", SamplingContent.text "hi"⟩]⟩
          ModelOutcome.timeout ⟨0, 0, 0, 0, 0⟩).2.completed =
        (sample [("a:b", ⟨true, "ollama", true, "m"⟩)] "a:b"
          ⟨none, [⟨"user", SamplingContent.text "hi"⟩]⟩
          ModelOutcome.timeout ⟨0, 0, 0, 0, 0⟩).2.admitted) := by
  refine ⟨by decide, by decide, by decide⟩

/-- **C7 (amended)** — For every call to `SamplingGateway.sample`, the
inflight counter returns to its prior value; `completed` is incremented
exactly when the call was admitted past the semaphore, and `rejected`
exactly when the call failed (so an admitted call that times out, is
cancelled, or errors increments both); consequently
`inflight + completed_recent = admitted_total` is preserved. -/
theorem C7_sampling_counters (sessions : List (String × SessionView))
    (sessionKey : String) (params : SamplingParams) (mo : ModelOutcome)
    (g : GatewayState) :
    (sample sessions sessionKey params mo g).2.inflight = g.inflight ∧
    ((sample sessions sessionKey params mo g).2 =
       { g with admitted := g.admitted + 1, modelCalls := g.modelCalls + 1,
                completed := g.completed + 1 } ∨
     (sample sessions sessionKey params mo g).2 =
       { g with admitted := g.admitted + 1, modelCalls := g.modelCalls + 1,
                completed := g.completed + 1, rejected := g.rejected + 1 } ∨
     (sample sessions sessionKey params mo g).2 =
       { g with rejected := g.rejected + 1 }) ∧
    (g.inflight + g.completed = g.admitted →
      (sample sessions sessionKey params mo g).2.inflight +
        (sample sessions sessionKey params mo g).2.completed =
        (sample sessions sessionKey params mo g).2.admitted) := by
  have hmain :
      (sample sessions sessionKey params mo g).2 =
        { g with admitted := g.admitted + 1, modelCalls := g.modelCalls + 1,
                 completed := g.completed + 1 } ∨
      (sample sessions sessionKey params mo g).2 =
        { g with admitted := g.admitted + 1, modelCalls := g.modelCalls + 1,
                 completed := g.completed + 1, rejected := g.rejected + 1 } ∨
      (sample sessions sessionKey params mo g).2 =
        { g with rejected := g.rejected + 1 } := by
    obtain ⟨gi, gc, gr, ga, gm⟩ := g
    unfold sample
    cases assocLookup sessions sessionKey with
    | none => right; right; rfl
    | some s =>
      by_cases ha : s.active = true
      · by_cases hp : s.provider = "ollama"
        · cases hconv : to_ollama_messages params with
          | error e => right; right; simp [ha, hp, hconv]
          | ok msgs =>
            by_cases hc : s.hasClient = true
            · cases mo with
              | success c => left; simp [ha, hp, hconv, hc]
              | timeout => right; left; simp [ha, hp, hconv, hc]
              | cancelled => right; left; simp [ha, hp, hconv, hc]
              | failure m => right; left; simp [ha, hp, hconv, hc]
            · right; right
              rw [Bool.not_eq_true] at hc
              simp [ha, hp, hconv, hc]
        · right; right; simp [ha, hp]
      · right; right
        rw [Bool.not_eq_true] at ha
        simp [ha]
  refine ⟨?_, hmain, ?_⟩
  · rcases hmain with h | h | h <;> simp [h]
  · intro hinv
    rcases hmain with h | h | h <;> simp [h] <;> omega

/-- Witness for C7 (amended) at a concrete successful call. -/
theorem C7_sampling_counters_witness :
    (sample [("a:b", ⟨true, "ollama", true, "m"⟩)] "a:b"
        ⟨none, [⟨"user", SamplingContent.text "hi"⟩]⟩
        (ModelOutcome.success "ok") ⟨0, 0, 0, 0, 0⟩).2.inflight = 0 ∧
    (sample [("a:b", ⟨true, "ollama", true, "m"⟩)] "a:b"
        ⟨none, [⟨"user", SamplingContent.text "hi"⟩]⟩
        (ModelOutcome.success "ok") ⟨0, 0, 0, 0, 0⟩).2.inflight +
      (sample [("a:b", ⟨true, "ollama", true, "m"⟩)] "a:b"
        ⟨none, [⟨"user", SamplingContent.text "hi"⟩]⟩
        (ModelOutcome.success "ok") ⟨0, 0, 0, 0, 0⟩).2.completed =
      (sample [("a:b", ⟨true, "ollama", true, "m"⟩)] "a:b"
        ⟨none, [⟨"user", SamplingContent.text "hi"⟩]⟩
        (ModelOutcome.success "ok") ⟨0, 0, 0, 0, 0⟩).2.admitted := by
  have h := C7_sampling_counters [("a:b", ⟨true, "ollama", true, "m"⟩)] "a:b"
    ⟨none, [⟨"user", SamplingContent.text "hi"⟩]⟩
    (ModelOutcome.success "ok") ⟨0, 0, 0, 0, 0⟩
  exact ⟨h.1, h.2.2 (by decide)⟩

/-- **C10** — For every sampling request whose `params.messages` list is
empty, issued against an existing active session with provider `ollama`,
`SamplingGateway.sample` returns an `ErrorData` with code `INVALID_REQUEST`
and message `"Sampling expects at least one message"`, increments only the
rejected counter, and performs no model call — no semaphore permit is
acquired (ghost `admitted` and `modelCalls` are unchanged). -/
theorem C10_empty_messages_rejected (sessions : List (String × SessionView))
    (sessionKey : String) (params : SamplingParams) (mo : ModelOutcome)
    (g : GatewayState) (s : SessionView)
    (hs : assocLookup sessions sessionKey = some s)
    (hactive : s.active = true)
    (hprov : s.provider = "ollama")
    (hempty : params.messages = []) :
    sample sessions sessionKey params mo g =
      (SampleResult.errorData INVALID_REQUEST "Sampling expects at least one message",
       { g with rejected := g.rejected + 1 }) ∧
    (sample sessions sessionKey params mo g).2.admitted = g.admitted ∧
    (sample sessions sessionKey params mo g).2.modelCalls = g.modelCalls ∧
    (sample sessions sessionKey params mo g).2.inflight = g.inflight ∧
    (sample sessions sessionKey params mo g).2.completed = g.completed := by
  have hconv : to_ollama_messages params =
      Except.error "Sampling expects at least one message" := by
    simp [to_ollama_messages, hempty]
  have hmain : sample sessions sessionKey params mo g =
      (SampleResult.errorData INVALID_REQUEST "Sampling expects at least one message",
       { g with rejected := g.rejected + 1 }) := by
    unfold sample
    simp [hs, hactive, hprov, hconv]
  exact ⟨hmain, by simp [hmain], by simp [hmain], by simp [hmain], by simp [hmain]⟩

/-- Witness for C10 at a concrete empty-messages request. -/
theorem C10_empty_messages_rejected_witness :
    sample [("u:c", ⟨true, "ollama", true, "llama"⟩)] "u:c"
        ⟨some "sys", []⟩ (ModelOutcome.success "x") ⟨0, 0, 0, 0, 0⟩ =
      (SampleResult.errorData INVALID_REQUEST "Sampling expects at least one message",
       ⟨0, 0, 1, 0, 0⟩) :=
  (C10_empty_messages_rejected [("u:c", ⟨true, "ollama", true, "llama"⟩)] "u:c"
    ⟨some "sys", []⟩ (ModelOutcome.success "x") ⟨0, 0, 0, 0, 0⟩
    ⟨true, "ollama", true, "llama"⟩ (by rfl) (by rfl) (by rfl) (by rfl)).1

/-! ## C9 — `AgentManager.create_session` (`src/agent/manager.py`,
lines 86-144).

The constructed collaborators (provider bundle = agent + adapter, MCP
client, worker task) are opaque; constructing them is recorded in a ghost
effect trace so that "constructs nothing" is expressible. -/

/-- The session fields the creation path populates.  `pendingTurn` entries
are `(payload, role)` with string payloads (capability summaries). -/
structure AgentSessionModel where
  sessionId : String
  userId : String
  chatId : String
  provider : String
  pendingTurn : List (String × Option String) := []
  active : Bool := true
deriving Repr, DecidableEq

/-- Ghost record of the constructions `create_session` performs. -/
inductive CreateEffect where
  | builtProviderBundle (provider : String)
  | setSystemPrompt
  | builtMcpClient
  | registeredCapabilityHandler
  | setActiveTools
  | spawnedWorkerTask
deriving Repr, DecidableEq

/-- The manager state `create_session` reads and writes. -/
structure ManagerState where
  sessions : List (String × AgentSessionModel)
  defaultProvider : String
deriving Repr, DecidableEq

/-- Oracle for the effectful miss path: the fresh uuid, the outcome of
`mcp_client.initialize()` (`Except.error` = it raised, e.g. stdio), and the
pending entries appended by the capability handler during the initial
capability snapshot. -/
structure CreateOracle where
  newSessionId : String
  initResult : Except String Bool
  initialPending : List (String × Option String)

/-- `AgentManager.get_session_key`. -/
def get_session_key (userId chatId : String) : String :=
  userId ++ ":" ++ chatId

/-- Embedding of `AgentManager.create_session`. -/
def create_session (m : ManagerState) (userId chatId : String)
    (provider : Option String) (o : CreateOracle) :
    Except String AgentSessionModel × ManagerState × List CreateEffect :=
  let key := get_session_key userId chatId
  match assocLookup m.sessions key with
  | some s => (Except.ok s, m, [])
  | none =>
    let providerName := pyLower (provider.getD m.defaultProvider)
    let effects0 := [CreateEffect.builtProviderBundle providerName,
                     CreateEffect.setSystemPrompt,
                     CreateEffect.builtMcpClient,
                     CreateEffect.registeredCapabilityHandler]
    match o.initResult with
    | .error e => (Except.error e, m, effects0)
    | .ok false =>
      (Except.error ("RuntimeError: Failed to initialize MCP client for session " ++ key),
       m, effects0)
    | .ok true =>
      let sess : AgentSessionModel :=
        ⟨o.newSessionId, userId, chatId, providerName, o.initialPending, true⟩
      (Except.ok sess,
       { m with sessions := m.sessions ++ [(key, sess)] },
       effects0 ++ [CreateEffect.setActiveTools, CreateEffect.spawnedWorkerTask])

theorem assocLookup_append_self {α : Type} (xs : List (String × α)) (k : String)
    (v : α) (h : assocLookup xs k = none) :
    assocLookup (xs ++ [(k, v)]) k = some v := by
  induction xs with
  | nil => simp [assocLookup]
  | cons p rest ih =>
    obtain ⟨pk, pv⟩ := p
    by_cases hp : pk = k
    · simp [assocLookup, hp] at h
    · simp [assocLookup, hp] at h ⊢
      exact ih h

/-- **C9** — Calling `AgentManager.create_session` for a `(user_id,
chat_id)` pair that already has a session returns the existing
`AgentSession` unchanged, leaves the manager state unchanged, and performs
no construction (no new agent/adapter bundle, MCP client, or worker task);
consequently any call following a successful `create_session` for the same
pair returns the very session that call produced, again constructing
nothing. -/
theorem C9_create_session_idempotent (m : ManagerState) (userId chatId : String)
    (provider : Option String) (o : CreateOracle) :
    (∀ s, assocLookup m.sessions (get_session_key userId chatId) = some s →
      create_session m userId chatId provider o = (Except.ok s, m, [])) ∧
    (∀ sess m' eff (provider' : Option String) (o' : CreateOracle),
      create_session m userId chatId provider o = (Except.ok sess, m', eff) →
      create_session m' userId chatId provider' o' = (Except.ok sess, m', [])) := by
  constructor
  · intro s h
    unfold create_session
    simp [h]
  · intro sess m' eff provider' o' hok
    cases hstart : assocLookup m.sessions (get_session_key userId chatId) with
    | some s =>
      rw [create_session] at hok
      simp [hstart] at hok
      obtain ⟨h1, h2, h3⟩ := hok
      subst h1 h2
      unfold create_session
      simp [hstart]
    | none =>
      rw [create_session] at hok
      simp only [hstart] at hok
      cases hini : o.initResult with
      | error e => simp [hini] at hok
      | ok b =>
        cases b with
        | false => simp [hini] at hok
        | true =>
          simp [hini] at hok
          obtain ⟨h1, h2, h3⟩ := hok
          subst h1 h2
          unfold create_session
          simp [assocLookup_append_self _ _ _ hstart]

/-- Witness for C9: a concrete manager that already holds the session. -/
theorem C9_create_session_idempotent_witness :
    create_session
      ⟨[("alice:c1", ⟨"sid-1", "alice", "c1", "ollama", [], true⟩)], "ollama"⟩
      "alice" "c1" none ⟨"sid-2", Except.ok true, []⟩ =
      (Except.ok ⟨"sid-1", "alice", "c1", "ollama", [], true⟩,
       ⟨[("alice:c1", ⟨"sid-1", "alice", "c1", "ollama", [], true⟩)], "ollama"⟩,
       []) :=
  (C9_create_session_idempotent
    ⟨[("alice:c1", ⟨"sid-1", "alice", "c1", "ollama", [], true⟩)], "ollama"⟩
    "alice" "c1" none ⟨"sid-2", Except.ok true, []⟩).1
    ⟨"sid-1", "alice", "c1", "ollama", [], true⟩ (by rfl)

/-! ## C1, C2 — the session scheduler (`src/agent/manager.py`, lines
127-331) with the content mapping it uses
(`src/adapters/adapter.py` `build_provider_messages`,
`src/adapters/ollama/ollama_content_mapper.py`) and the summary formatter
`_format_capability_update`
(`src/adapters/ollama/ollama_tool_mapper.py`, lines 78-113).

The modelled payload domain covers the payload shapes the claims exercise:
raw strings (user text, capability summaries, mapping diagnostics, textual
RPC errors) and `CallToolResult` contents made of text / image / audio /
unknown blocks.  Blob and prompt/list results (and hence the file-handler
artifact path) are outside the modelled domain.  Callback events model
invocations of the registered manager callbacks for one fixed session. -/

/-- `text.strip()` used as a condition: true iff some character is
non-whitespace. -/
def pyTruthyStr (s : String) : Bool :=
  s.toList.any (fun c => !c.isWhitespace)

/-- MCP content blocks inside a `CallToolResult`. -/
inductive MCPBlock where
  | textBlock (s : String)
  | imageBlock (data : String)
  | audioBlock
  | otherBlock
deriving Repr, DecidableEq

/-- A queued payload (`types.ServerResult | str`, restricted as above). -/
inductive TurnPayload where
  | text (s : String)
  | callToolResult (content : List MCPBlock)
deriving Repr, DecidableEq

/-- A pending / queued entry `(payload, role)`. -/
abbrev TurnEntry := TurnPayload × Option String

/-- A queued turn. -/
abbrev SchedTurn := List TurnEntry

/-- `OllamaMappedContent`. -/
structure OllamaMappedContent where
  text : String
  images : Option (List String) := none
deriving Repr, DecidableEq

/-- UI artifacts of the modelled blocks. -/
inductive Artifact where
  | image (data : String)
  | audio
  | other
deriving Repr, DecidableEq

/-- `OllamaContentMapper.handle_content_block` with no role threaded
(`map_items` calls it without one, so the prefix is empty). -/
def handleContentBlock (supportsVision : Bool) (block : MCPBlock) :
    List OllamaMappedContent × List Artifact :=
  match block with
  | .textBlock s => if pyTruthyStr s then ([⟨s, none⟩], []) else ([], [.other])
  | .imageBlock d =>
    if supportsVision then ([⟨"", some [d]⟩], []) else ([], [.image d])
  | .audioBlock => ([], [.audio])
  | .otherBlock => ([], [.other])

/-- `_coerce_entry` + `map_items` on one payload: a string yields itself to
the block handler; a `CallToolResult` yields its content blocks. -/
def mapItem (supportsVision : Bool) : TurnPayload →
    List OllamaMappedContent × List Artifact
  | .text s => if pyTruthyStr s then ([⟨s, none⟩], []) else ([], [.other])
  | .callToolResult blocks =>
    let results := blocks.map (handleContentBlock supportsVision)
    ((results.map Prod.fst).flatten, (results.map Prod.snd).flatten)

/-- `MCPContentMapper.map_items` over a payload sequence. -/
def map_items (supportsVision : Bool) (payloads : List TurnPayload) :
    List OllamaMappedContent × List Artifact :=
  let results := payloads.map (mapItem supportsVision)
  ((results.map Prod.fst).flatten, (results.map Prod.snd).flatten)

/-- `OllamaAgent.make_tool_message` (an empty images list is falsy and is
not attached). -/
def make_tool_message (content : String) (images : Option (List String)) :
    OllamaMsg :=
  { role := "tool", content := content,
    images := match images with
      | some (x :: xs) => some (x :: xs)
      | _ => none }

/-- `OllamaAgent.make_user_message`. -/
def make_user_message (content : String) : OllamaMsg :=
  { role := "user", content := content }

/-- `str(item)` for user-role payloads (user payloads are strings in every
send path; the rendering of a result object is a fixed display form). -/
def payloadStr : TurnPayload → String
  | .text s => s
  | .callToolResult _ => "CallToolResult"

/-- `MCPAdapter.build_provider_messages` for the ollama mapper. -/
def build_provider_messages (supportsVision : Bool)
    (payloads : List TurnPayload) (role : Option String) :
    List OllamaMsg × List Artifact :=
  if role = some "user" then
    (payloads.map (fun p => make_user_message (payloadStr p)), [])
  else
    let res := map_items supportsVision payloads
    if res.1.isEmpty then ([], res.2)
    else (res.1.map (fun c => make_tool_message c.text c.images), res.2)

/-- Callback invocations observable on one session, in firing order. -/
inductive CallbackEvent where
  | response (cumulative : String)
  | thinking (cumulative : String)
  | toolCall (method : String) (params : Json)
  | toolResponse (content : String)
  | completion (thinking : Option String) (content : Option String)
      (rpcCalls : Option (List Json))
deriving Repr

/-- `request.get("method", "unknown")` on an emitted request. -/
def methodOf (r : Json) : String :=
  match r with
  | .obj fs =>
    match Json.lookupKey fs "method" with
    | some (.str m) => m
    | some v => Json.pyStr v
    | none => "unknown"
  | _ => "unknown"

/-- `request.get("params", {})` on an emitted request. -/
def paramsOf (r : Json) : Json :=
  match r with
  | .obj fs => (Json.lookupKey fs "params").getD (Json.obj [])
  | _ => Json.obj []

/-- One entry of `_prepare_turn_messages`: provider messages plus the
`on_tool_response` events for non-blank tool-role message contents (no blob
artifacts exist in the modelled domain, so the file-handler path is
silent). -/
def prepareEntry (supportsVision : Bool) (e : TurnEntry) :
    List OllamaMsg × List CallbackEvent :=
  let res := build_provider_messages supportsVision [e.1] e.2
  let toolEvents :=
    if e.2 = some "tool" then
      (res.1.filter (fun msg => pyTruthyStr msg.content)).map
        (fun msg => CallbackEvent.toolResponse msg.content)
    else []
  (res.1, toolEvents)

/-- `_prepare_turn_messages` over a turn. -/
def prepareTurn (supportsVision : Bool) : SchedTurn →
    List OllamaMsg × List CallbackEvent
  | [] => ([], [])
  | e :: rest =>
    let r1 := prepareEntry supportsVision e
    let r2 := prepareTurn supportsVision rest
    (r1.1 ++ r2.1, r1.2 ++ r2.2)

/-- One streamed chunk `(thinking, content, tool_calls)` of
`agent.generate_response`. -/
structure StreamChunk where
  thinking : Option String := none
  content : String := ""
  toolPayload : Option Json := none

/-- The streamed response of one turn: its chunks, and whether the
generator raises at the end (a mid-stream transport/protocol failure). -/
structure StreamScript where
  chunks : List StreamChunk
  raisesAtEnd : Bool := false

/-- Mutable state of `_handle_streaming_response`, with the emitted events
and the pending-turn appends; `aborted` records an exception escaping the
chunk loop (the appends made before it are preserved, as
`session.pending_turn` is mutated in place). -/
structure StreamAcc where
  thinkBuf : String := ""
  lastThinking : Option String := none
  contentBuf : String := ""
  lastRequest : Option Json := none
  events : List CallbackEvent := []
  pending : List TurnEntry := []
  aborted : Bool := false
deriving Repr

/--`on_agent_tool_call` then dispatch, per produced request
(`_execute_single_request`; its defensive catch means the oracle always
yields a payload value). -/
def runRequests (execOracle : Json → TurnPayload) : List Json →
    List CallbackEvent × List TurnEntry
  | [] => ([], [])
  | r :: rs =>
    let rest := runRequests execOracle rs
    (CallbackEvent.toolCall (methodOf r) (paramsOf r) :: rest.1,
     (execOracle r, some "tool") :: rest.2)

/-- The thinking branch of one `async for` iteration (`if thinking:`). -/
def stepThinking (a : StreamAcc) (th : Option String) : StreamAcc :=
  match th with
  | some t =>
    if t = "" then a
    else
      { a with thinkBuf := a.thinkBuf ++ t,
               lastThinking := some (a.thinkBuf ++ t),
               events := a.events ++ [CallbackEvent.thinking (a.thinkBuf ++ t)] }
  | none => a

/-- The content branch (`if content and content.strip()`; a non-blank strip
already implies a non-empty `content`, so the conjunction reduces to the
strip check). -/
def stepContent (a : StreamAcc) (content : String) : StreamAcc :=
  if pyTruthyStr content then
    { a with contentBuf := a.contentBuf ++ content,
             events := a.events ++ [CallbackEvent.response (a.contentBuf ++ content)] }
  else a

/-- The tool-payload branch: adapt, note the last request, append the
mapping diagnostic, then dispatch each request. -/
def stepTool (trans : TranslatorState) (py : PyOracles) (toolNames : List String)
    (execOracle : Json → TurnPayload) (a : StreamAcc) (tp : Option Json) :
    StreamAcc :=
  match tp with
  | none => a
  | some p =>
    match adapt_model_call_to_mcp trans py toolNames p with
    | .error _ => { a with aborted := true }
    | .ok res =>
      let a1 :=
        match res.1.getLast? with
        | some r => { a with lastRequest := some r }
        | none => a
      let a2 :=
        match res.2.1 with
        | some err =>
          { a1 with pending := a1.pending ++ [(TurnPayload.text err, some "tool")] }
        | none => a1
      let run := runRequests execOracle res.1
      { a2 with events := a2.events ++ run.1, pending := a2.pending ++ run.2 }

/-- One iteration of the `async for` body in
`_handle_streaming_response`. -/
def stepChunk (trans : TranslatorState) (py : PyOracles) (toolNames : List String)
    (execOracle : Json → TurnPayload) (a : StreamAcc) (c : StreamChunk) :
    StreamAcc :=
  if a.aborted then a
  else
    stepTool trans py toolNames execOracle
      (stepContent (stepThinking a c.thinking) c.content) c.toolPayload

/-- `content_buffer.strip() or None`. -/
def finalContentOf (buf : String) : Option String :=
  if pyStrip buf ≠ "" then some (pyStrip buf) else none

/-- Embedding of `_process_turn` for the streaming path: the emitted
callback events in order, and the pending-turn entries appended while
processing. -/
def process_turn (supportsVision : Bool) (trans : TranslatorState)
    (py : PyOracles) (toolNames : List String) (execOracle : Json → TurnPayload)
    (script : StreamScript) (turn : SchedTurn) :
    List CallbackEvent × List TurnEntry :=
  if turn.isEmpty then ([], [])
  else
    let prep := prepareTurn supportsVision turn
    if prep.1.isEmpty then (prep.2, [])
    else
      let a := script.chunks.foldl (stepChunk trans py toolNames execOracle) {}
      if a.aborted || script.raisesAtEnd then
        (prep.2 ++ a.events, a.pending)
      else
        (prep.2 ++ a.events ++
          [CallbackEvent.completion a.lastThinking (finalContentOf a.contentBuf)
            (match a.lastRequest with
             | some r => some [r]
             | none => none)],
         a.pending)

/-- `CallbackEvent.completion` recognizer. -/
def isCompletion : CallbackEvent → Bool
  | .completion _ _ _ => true
  | _ => false

/-- Chunks whose tool payload (if any) translates without raising. -/
def chunkOk (trans : TranslatorState) (py : PyOracles) (toolNames : List String)
    (c : StreamChunk) : Bool :=
  match c.toolPayload with
  | none => true
  | some p =>
    match adapt_model_call_to_mcp trans py toolNames p with
    | .ok _ => true
    | .error _ => false

theorem prepareEntry_no_completion (sv : Bool) (e : TurnEntry) :
    ∀ ev ∈ (prepareEntry sv e).2, isCompletion ev = false := by
  intro ev hev
  unfold prepareEntry at hev
  by_cases hr : e.2 = some "tool"
  · simp only [hr, if_pos] at hev
    simp only [List.mem_map] at hev
    obtain ⟨msg, _, hm⟩ := hev
    subst hm
    rfl
  · simp [hr] at hev

theorem prepareTurn_no_completion (sv : Bool) (t : SchedTurn) :
    ∀ ev ∈ (prepareTurn sv t).2, isCompletion ev = false := by
  induction t with
  | nil => intro ev hev; simp [prepareTurn] at hev
  | cons e rest ih =>
    intro ev hev
    simp only [prepareTurn, List.mem_append] at hev
    rcases hev with h | h
    · exact prepareEntry_no_completion sv e ev h
    · exact ih ev h

theorem runRequests_no_completion (ex : Json → TurnPayload) (rs : List Json) :
    ∀ ev ∈ (runRequests ex rs).1, isCompletion ev = false := by
  induction rs with
  | nil => intro ev hev; simp [runRequests] at hev
  | cons r rest ih =>
    intro ev hev
    simp only [runRequests, List.mem_cons] at hev
    rcases hev with h | h
    · subst h; rfl
    · exact ih ev h


theorem stepThinking_events (a : StreamAcc) (th : Option String)
    (hprev : ∀ ev ∈ a.events, isCompletion ev = false) :
    ∀ ev ∈ (stepThinking a th).events, isCompletion ev = false := by
  intro ev hev
  cases th with
  | none => exact hprev ev hev
  | some t =>
    by_cases ht : t = ""
    · simp only [stepThinking, ht, if_pos] at hev
      exact hprev ev hev
    · simp only [stepThinking, ht, reduceIte, List.mem_append,
        List.mem_singleton] at hev
      rcases hev with h | h
      · exact hprev ev h
      · subst h; rfl

theorem stepContent_events (a : StreamAcc) (content : String)
    (hprev : ∀ ev ∈ a.events, isCompletion ev = false) :
    ∀ ev ∈ (stepContent a content).events, isCompletion ev = false := by
  intro ev hev
  by_cases hc : pyTruthyStr content = true
  · simp only [stepContent, hc, reduceIte, List.mem_append,
      List.mem_singleton] at hev
    rcases hev with h | h
    · exact hprev ev h
    · subst h; rfl
  · rw [Bool.not_eq_true] at hc
    simp only [stepContent, hc, Bool.false_eq_true, reduceIte] at hev
    exact hprev ev hev

theorem stepTool_events (trans : TranslatorState) (py : PyOracles)
    (toolNames : List String) (ex : Json → TurnPayload) (a : StreamAcc)
    (tp : Option Json) (hprev : ∀ ev ∈ a.events, isCompletion ev = false) :
    ∀ ev ∈ (stepTool trans py toolNames ex a tp).events, isCompletion ev = false := by
  intro ev hev
  cases tp with
  | none => exact hprev ev hev
  | some p =>
    cases had : adapt_model_call_to_mcp trans py toolNames p with
    | error e =>
      simp only [stepTool, had] at hev
      exact hprev ev hev
    | ok res =>
      cases hgl : res.1.getLast? with
      | none =>
        cases herr : res.2.1 with
        | none =>
          simp only [stepTool, had, hgl, herr, List.mem_append] at hev
          rcases hev with h | h
          · exact hprev ev h
          · exact runRequests_no_completion ex res.1 ev h
        | some err =>
          simp only [stepTool, had, hgl, herr, List.mem_append] at hev
          rcases hev with h | h
          · exact hprev ev h
          · exact runRequests_no_completion ex res.1 ev h
      | some r =>
        cases herr : res.2.1 with
        | none =>
          simp only [stepTool, had, hgl, herr, List.mem_append] at hev
          rcases hev with h | h
          · exact hprev ev h
          · exact runRequests_no_completion ex res.1 ev h
        | some err =>
          simp only [stepTool, had, hgl, herr, List.mem_append] at hev
          rcases hev with h | h
          · exact hprev ev h
          · exact runRequests_no_completion ex res.1 ev h

theorem stepChunk_events (trans : TranslatorState) (py : PyOracles)
    (toolNames : List String) (ex : Json → TurnPayload) (a : StreamAcc)
    (c : StreamChunk) (hprev : ∀ ev ∈ a.events, isCompletion ev = false) :
    ∀ ev ∈ (stepChunk trans py toolNames ex a c).events, isCompletion ev = false := by
  intro ev hev
  by_cases hab : a.aborted = true
  · simp only [stepChunk, hab, if_pos] at hev
    exact hprev ev hev
  · rw [Bool.not_eq_true] at hab
    simp only [stepChunk, hab, Bool.false_eq_true, reduceIte] at hev
    exact stepTool_events trans py toolNames ex _ _
      (stepContent_events _ _ (stepThinking_events _ _ hprev)) ev hev

theorem foldChunks_events (trans : TranslatorState) (py : PyOracles)
    (toolNames : List String) (ex : Json → TurnPayload) :
    ∀ (chunks : List StreamChunk) (a : StreamAcc),
      (∀ ev ∈ a.events, isCompletion ev = false) →
      ∀ ev ∈ (chunks.foldl (stepChunk trans py toolNames ex) a).events,
        isCompletion ev = false := by
  intro chunks
  induction chunks with
  | nil => intro a ha ev hev; exact ha ev hev
  | cons c cs ih =>
    intro a ha ev hev
    exact ih _ (stepChunk_events trans py toolNames ex a c ha) ev hev

theorem stepChunk_aborted (trans : TranslatorState) (py : PyOracles)
    (toolNames : List String) (ex : Json → TurnPayload) (a : StreamAcc)
    (c : StreamChunk) (hok : chunkOk trans py toolNames c = true)
    (hab : a.aborted = false) :
    (stepChunk trans py toolNames ex a c).aborted = false := by
  have h1 : (stepThinking a c.thinking).aborted = false := by
    cases c.thinking with
    | none => exact hab
    | some t =>
      by_cases ht : t = ""
      · simp [stepThinking, ht, hab]
      · simp [stepThinking, ht, hab]
  have h2 : (stepContent (stepThinking a c.thinking) c.content).aborted = false := by
    by_cases hc : pyTruthyStr c.content = true
    · simp [stepContent, hc, h1]
    · rw [Bool.not_eq_true] at hc
      simp [stepContent, hc, h1]
  rw [stepChunk, hab]
  simp only [Bool.false_eq_true, reduceIte]
  cases htp : c.toolPayload with
  | none => simpa [stepTool, htp] using h2
  | some p =>
    have hok' : (match adapt_model_call_to_mcp trans py toolNames p with
        | Except.ok _ => true
        | Except.error _ => false) = true := by
      simpa [chunkOk, htp] using hok
    cases had : adapt_model_call_to_mcp trans py toolNames p with
    | error e => rw [had] at hok'; simp at hok'
    | ok res =>
      cases hgl : res.1.getLast? with
      | none =>
        cases herr : res.2.1 with
        | none => simpa [stepTool, htp, had, hgl, herr] using h2
        | some err => simpa [stepTool, htp, had, hgl, herr] using h2
      | some r =>
        cases herr : res.2.1 with
        | none => simpa [stepTool, htp, had, hgl, herr] using h2
        | some err => simpa [stepTool, htp, had, hgl, herr] using h2

theorem foldChunks_aborted (trans : TranslatorState) (py : PyOracles)
    (toolNames : List String) (ex : Json → TurnPayload) :
    ∀ (chunks : List StreamChunk) (a : StreamAcc),
      chunks.all (chunkOk trans py toolNames) = true →
      a.aborted = false →
      (chunks.foldl (stepChunk trans py toolNames ex) a).aborted = false := by
  intro chunks
  induction chunks with
  | nil => intro a _ hab; exact hab
  | cons c cs ih =>
    intro a hall hab
    simp only [List.all_cons, Bool.and_eq_true] at hall
    exact ih _ hall.2 (stepChunk_aborted trans py toolNames ex a c hall.1 hab)

theorem process_turn_completion (sv : Bool) (trans : TranslatorState)
    (py : PyOracles) (toolNames : List String) (ex : Json → TurnPayload)
    (script : StreamScript) (turn : SchedTurn)
    (hprep : (prepareTurn sv turn).1 ≠ [])
    (hok : script.chunks.all (chunkOk trans py toolNames) = true)
    (hnr : script.raisesAtEnd = false) :
    ((process_turn sv trans py toolNames ex script turn).1.filter
      isCompletion).length = 1 ∧
    (∃ th ct rc, (process_turn sv trans py toolNames ex script turn).1.getLast? =
      some (CallbackEvent.completion th ct rc)) := by
  have hturn : turn.isEmpty = false := by
    cases turn with
    | nil => simp [prepareTurn] at hprep
    | cons e r => rfl
  have hprep' : (prepareTurn sv turn).1.isEmpty = false := by
    cases h : (prepareTurn sv turn).1 with
    | nil => exact absurd h hprep
    | cons x xs => rfl
  have hab : ((script.chunks.foldl (stepChunk trans py toolNames ex)
      {}).aborted : Bool) = false :=
    foldChunks_aborted trans py toolNames ex script.chunks {} hok rfl
  have heq : process_turn sv trans py toolNames ex script turn =
      ((prepareTurn sv turn).2 ++
        (script.chunks.foldl (stepChunk trans py toolNames ex) {}).events ++
        [CallbackEvent.completion
          (script.chunks.foldl (stepChunk trans py toolNames ex) {}).lastThinking
          (finalContentOf
            (script.chunks.foldl (stepChunk trans py toolNames ex) {}).contentBuf)
          (match (script.chunks.foldl (stepChunk trans py toolNames ex)
              {}).lastRequest with
           | some r => some [r]
           | none => none)],
       (script.chunks.foldl (stepChunk trans py toolNames ex) {}).pending) := by
    rw [process_turn, hturn]
    simp only [Bool.false_eq_true, reduceIte, hprep', hab, hnr, Bool.or_self]
  have hfA : (prepareTurn sv turn).2.filter isCompletion = [] := by
    rw [List.filter_eq_nil_iff]
    intro ev hev
    simp [prepareTurn_no_completion sv turn ev hev]
  have hfB : (script.chunks.foldl (stepChunk trans py toolNames ex)
      {}).events.filter isCompletion = [] := by
    rw [List.filter_eq_nil_iff]
    intro ev hev
    simp [foldChunks_events trans py toolNames ex script.chunks {}
      (by intro ev' h; simp at h) ev hev]
  constructor
  · rw [heq]
    simp only [List.filter_append, hfA, hfB, List.nil_append]
    rfl
  · rw [heq]
    simp only [← List.append_assoc, List.getLast?_concat]
    exact ⟨_, _, _, rfl⟩

/-- **C2 (counterexample)** — A dequeued non-empty turn can fire zero
`on_agent_completion` callbacks: a tool result mapping to no provider
messages short-circuits `_process_turn` before the response path, and a
response generator that raises skips the completion even after other
callbacks of the turn have fired. -/
theorem C2_zero_completion_counterexample :
    process_turn false ⟨[], [], []⟩ ⟨fun _ => none, fun _ _ => ""⟩ []
      (fun _ => TurnPayload.text "r") ⟨[], false⟩
      [(TurnPayload.callToolResult [MCPBlock.audioBlock], some "tool")] =
      ([], []) ∧
    process_turn false ⟨[], [], []⟩ ⟨fun _ => none, fun _ _ => ""⟩ []
      (fun _ => TurnPayload.text "r") ⟨[], true⟩
      [(TurnPayload.text "hello", some "tool")] =
      ([CallbackEvent.toolResponse "hello"], []) :=
  ⟨rfl, rfl⟩

/-- **C2 (amended)** — For every turn the session worker dequeues whose
entries build at least one provider message and whose streamed response
completes without an exception (every tool payload translates, no raise at
end of stream), the Manager fires `on_agent_completion` exactly once and
after every other callback of that turn; across any sequence of such turns
processed by the single worker, completions are totally ordered, one per
turn.  (Turns building no provider messages, or aborted by an exception,
fire no completion at all.) -/
theorem C2_completion_exactly_once (sv : Bool) (trans : TranslatorState)
    (py : PyOracles) (toolNames : List String) (ex : Json → TurnPayload)
    (script : StreamScript) (turn : SchedTurn)
    (hprep : (prepareTurn sv turn).1 ≠ [])
    (hok : script.chunks.all (chunkOk trans py toolNames) = true)
    (hnr : script.raisesAtEnd = false) :
    ((process_turn sv trans py toolNames ex script turn).1.filter
      isCompletion).length = 1 ∧
    (∃ th ct rc, (process_turn sv trans py toolNames ex script turn).1.getLast? =
      some (CallbackEvent.completion th ct rc)) ∧
    (∀ (runs : List (StreamScript × SchedTurn)),
      (∀ r ∈ runs, (prepareTurn sv r.2).1 ≠ [] ∧
        r.1.chunks.all (chunkOk trans py toolNames) = true ∧
        r.1.raisesAtEnd = false) →
      (((runs.map (fun r =>
          (process_turn sv trans py toolNames ex r.1 r.2).1)).flatten.filter
        isCompletion).length = runs.length)) := by
  refine ⟨(process_turn_completion sv trans py toolNames ex script turn
    hprep hok hnr).1,
    (process_turn_completion sv trans py toolNames ex script turn
      hprep hok hnr).2, ?_⟩
  intro runs
  induction runs with
  | nil => intro _; rfl
  | cons r rest ih =>
    intro hall
    have hr := hall r (List.mem_cons_self r rest)
    have hrest := ih (fun x hx => hall x (List.mem_cons_of_mem r hx))
    simp only [List.map_cons, List.flatten_cons, List.filter_append,
      List.length_append, List.length_cons]
    rw [hrest]
    have h1 := (process_turn_completion sv trans py toolNames ex r.1 r.2
      hr.1 hr.2.1 hr.2.2).1
    omega

/-- Witness for C2 (amended): a user turn answered by one streamed content
chunk fires exactly one completion, last. -/
theorem C2_completion_exactly_once_witness :
    ((process_turn false ⟨[], [], []⟩ ⟨fun _ => none, fun _ _ => ""⟩ []
        (fun _ => TurnPayload.text "r") ⟨[⟨none, "Hello", none⟩], false⟩
        [(TurnPayload.text "hi", some "user")]).1.filter isCompletion).length = 1 ∧
    (∃ th ct rc,
      (process_turn false ⟨[], [], []⟩ ⟨fun _ => none, fun _ _ => ""⟩ []
        (fun _ => TurnPayload.text "r") ⟨[⟨none, "Hello", none⟩], false⟩
        [(TurnPayload.text "hi", some "user")]).1.getLast? =
        some (CallbackEvent.completion th ct rc)) :=
  ⟨(C2_completion_exactly_once false ⟨[], [], []⟩ ⟨fun _ => none, fun _ _ => ""⟩ []
      (fun _ => TurnPayload.text "r") ⟨[⟨none, "Hello", none⟩], false⟩
      [(TurnPayload.text "hi", some "user")]
      (by decide) (by rfl) (by rfl)).1,
   (C2_completion_exactly_once false ⟨[], [], []⟩ ⟨fun _ => none, fun _ _ => ""⟩ []
      (fun _ => TurnPayload.text "r") ⟨[⟨none, "Hello", none⟩], false⟩
      [(TurnPayload.text "hi", some "user")]
      (by decide) (by rfl) (by rfl)).2.1⟩

/-- Tool fields read by `_format_capability_update` / `_build_provider_tools`. -/
structure MCPToolInfo where
  name : String
  description : Option String := none
deriving Repr, DecidableEq

/-- Resource fields read by the formatter (`mcp.types.Resource` has a
required `name`, which the `getattr` chain picks before `uri`). -/
structure MCPResourceInfo where
  uri : String
  name : String
  title : Option String := none
  description : Option String := none
deriving Repr, DecidableEq

/-- An entry of the combined added/removed/current capability lists. -/
inductive CapItem where
  | tool (t : MCPToolInfo)
  | resource (r : MCPResourceInfo)
deriving Repr, DecidableEq

/-- `getattr(item, "name", None) or getattr(item, "uri", None) or
"<unknown>"`. -/
def capItemName : CapItem → String
  | .tool t => if t.name ≠ "" then t.name else "<unknown>"
  | .resource r =>
    if r.name ≠ "" then r.name else if r.uri ≠ "" then r.uri else "<unknown>"

/-- `getattr(item, "description", None) or ""`. -/
def capItemDesc : CapItem → String
  | .tool t => (t.description.getD "")
  | .resource r => (r.description.getD "")

/-- `CapabilityChange` restricted to the fields the formatter reads. -/
structure CapChange where
  added : List CapItem
  removed : List CapItem
deriving Repr, DecidableEq

/-- `"\n".join(lines)`. -/
def joinLines : List String → String
  | [] => ""
  | [x] => x
  | x :: y :: rest => x ++ "\n" ++ joinLines (y :: rest)

/-- `enumerate(items, start=i)` rendered as `"{idx}. {name}: {desc}"`. -/
def enumLines : Nat → List CapItem → List String
  | _, [] => []
  | i, item :: rest =>
    (toString i ++ ". " ++ capItemName item ++ ": " ++ capItemDesc item) ::
      enumLines (i + 1) rest

/-- Embedding of `OllamaToolMapper._format_capability_update`
(`prompt_change` is ignored by the source, as here). -/
def formatCapabilityUpdate (toolsByName : List (String × MCPToolInfo))
    (resourcesByUri : List (String × MCPResourceInfo))
    (toolChange : CapChange) (_promptChange : CapChange)
    (resourceChange : CapChange) : Option String :=
  let combinedAdded := toolChange.added ++ resourceChange.added
  let combinedRemoved := toolChange.removed ++ resourceChange.removed
  if combinedAdded.isEmpty && combinedRemoved.isEmpty then none
  else
    let currentTools :=
      toolsByName.map (fun p => CapItem.tool p.2) ++
      resourcesByUri.map (fun p => CapItem.resource p.2)
    let lines :=
      ["The list of available tools has been updated.", "",
       "The following Tools are available:"] ++
      (if currentTools.isEmpty then ["None"] else enumLines 1 currentTools) ++
      (if combinedRemoved.isEmpty then []
       else ["", "The following tools have been removed:"] ++
            enumLines 1 combinedRemoved)
    some (joinLines lines)

theorem formatCapabilityUpdate_head (toolsByName : List (String × MCPToolInfo))
    (resourcesByUri : List (String × MCPResourceInfo))
    (tc pc rc : CapChange) (s : String)
    (h : formatCapabilityUpdate toolsByName resourcesByUri tc pc rc = some s) :
    ∃ r, s = "The list of available tools has been updated." ++ r := by
  unfold formatCapabilityUpdate at h
  by_cases he : ((tc.added ++ rc.added).isEmpty &&
      (tc.removed ++ rc.removed).isEmpty) = true
  · rw [if_pos he] at h
    exact Option.noConfusion h
  · rw [if_neg he] at h
    injection h with h
    rw [← h]
    simp only [List.cons_append, joinLines]
    exact ⟨_, rfl⟩

theorem pyTruthyStr_of_head (s r : String)
    (h : s = "The list of available tools has been updated." ++ r) :
    pyTruthyStr s = true := by
  subst h
  rw [pyTruthyStr]
  have : ("The list of available tools has been updated." ++ r).toList =
      "The list of available tools has been updated.".toList ++ r.toList := by
    simp [String.toList, String.data_append]
  rw [this, List.any_append]
  have hhead : "The list of available tools has been updated.".toList.any
      (fun c => !c.isWhitespace) = true := by decide
  rw [hhead]
  rfl

/-- The per-session pending accumulator and turn queue
(`AgentSession.pending_turn`, `AgentSession.message_queue`). -/
structure SessionSchedState where
  pending : SchedTurn
  queue : List SchedTurn
deriving Repr, DecidableEq

/-- The `capability_handler` closure registered in `create_session`
(`manager.py` lines 127-132): a non-null summary is appended to the pending
turn as a `(summary, "tool")` entry (the adapter/tool refresh touches no
scheduler state). -/
def capability_handler (st : SessionSchedState) (summary : Option String) :
    SessionSchedState :=
  match summary with
  | some s => { st with pending := st.pending ++ [(TurnPayload.text s, some "tool")] }
  | none => st

/-- `AgentManager._enqueue_turn`: snapshot a non-empty pending turn and
enqueue it; empty pending turns are discarded. -/
def enqueue_turn (st : SessionSchedState) : SessionSchedState :=
  if st.pending.isEmpty then st
  else { pending := [], queue := st.queue ++ [st.pending] }

/-- `AgentManager.send_message`: append `(message, "user")` to pending and
commit. -/
def send_message (st : SessionSchedState) (message : String) : SessionSchedState :=
  enqueue_turn { st with pending := st.pending ++ [(TurnPayload.text message, some "user")] }

/-- **C1 (counterexample)** — A capability-changed notification arriving
while the pending accumulator already holds an entry (e.g. a tool result
appended earlier in the same processing loop) appends its summary AFTER
that entry, so the next turn the worker processes does not begin with the
synthetic `(summary, "tool")` entry. -/
theorem C1_summary_not_first_counterexample :
    formatCapabilityUpdate [("echo", ⟨"echo", some "Echo tool"⟩)] []
      ⟨[CapItem.tool ⟨"echo", some "Echo tool"⟩], []⟩ ⟨[], []⟩ ⟨[], []⟩ =
      some "The list of available tools has been updated.\n\nThe following Tools are available:\n1. echo: Echo tool" ∧
    (enqueue_turn (capability_handler
        ⟨[(TurnPayload.text "prior tool result", some "tool")], []⟩
        (some "The list of available tools has been updated.\n\nThe following Tools are available:\n1. echo: Echo tool"))).queue =
      [[(TurnPayload.text "prior tool result", some "tool"),
        (TurnPayload.text "The list of available tools has been updated.\n\nThe following Tools are available:\n1. echo: Echo tool", some "tool")]] ∧
    ([(TurnPayload.text "prior tool result", some "tool"),
      (TurnPayload.text "The list of available tools has been updated.\n\nThe following Tools are available:\n1. echo: Echo tool", some "tool")].head? ≠
      some (TurnPayload.text "The list of available tools has been updated.\n\nThe following Tools are available:\n1. echo: Echo tool", some "tool")) := by
  refine ⟨rfl, rfl, ?_⟩
  intro h
  simp only [List.head?_cons, Option.some.injEq, Prod.mk.injEq] at h
  exact absurd h.1 (by decide)

/-- **C1 (amended)** — For a capability-changed notification with a
non-null summary that arrives while the session's pending accumulator and
queue are empty (the worker idle), the next turn the worker processes
begins with the synthetic `(summary, "tool")` entry; a following
`send_message` places its user entry after the summary in the same turn;
the provider messages built for that turn are exactly a tool-role message
carrying the summary — whose text starts with
`"The list of available tools has been updated."` — followed by the user
message. -/
theorem C1_capability_summary_next_turn
    (toolsByName : List (String × MCPToolInfo))
    (resourcesByUri : List (String × MCPResourceInfo))
    (tc pc rc : CapChange) (s u : String) (st : SessionSchedState) (sv : Bool)
    (hsum : formatCapabilityUpdate toolsByName resourcesByUri tc pc rc = some s)
    (hpend : st.pending = []) (hqueue : st.queue = []) :
    (send_message (capability_handler st
        (formatCapabilityUpdate toolsByName resourcesByUri tc pc rc)) u).queue =
      [[(TurnPayload.text s, some "tool"), (TurnPayload.text u, some "user")]] ∧
    (send_message (capability_handler st
        (formatCapabilityUpdate toolsByName resourcesByUri tc pc rc)) u).pending = [] ∧
    (prepareTurn sv
        [(TurnPayload.text s, some "tool"), (TurnPayload.text u, some "user")]).1 =
      [{ role := "tool", content := s }, { role := "user", content := u }] ∧
    (∃ r, s = "The list of available tools has been updated." ++ r) := by
  obtain ⟨r, hr⟩ := formatCapabilityUpdate_head toolsByName resourcesByUri
    tc pc rc s hsum
  have hst : pyTruthyStr s = true := pyTruthyStr_of_head s r hr
  refine ⟨?_, ?_, ?_, ⟨r, hr⟩⟩
  · rw [hsum]
    simp [capability_handler, send_message, enqueue_turn, hpend, hqueue]
  · rw [hsum]
    simp [capability_handler, send_message, enqueue_turn, hpend, hqueue]
  · simp [prepareTurn, prepareEntry, build_provider_messages, map_items,
      mapItem, make_tool_message, make_user_message, payloadStr, hst]

/-- Witness for C1 (amended) at a concrete one-tool capability change and a
following `send_message "hi"`. -/
theorem C1_capability_summary_next_turn_witness :
    (send_message (capability_handler ⟨[], []⟩
        (formatCapabilityUpdate [("echo", ⟨"echo", some "Echo tool"⟩)] []
          ⟨[CapItem.tool ⟨"echo", some "Echo tool"⟩], []⟩ ⟨[], []⟩ ⟨[], []⟩))
        "hi").queue =
      [[(TurnPayload.text "The list of available tools has been updated.\n\nThe following Tools are available:\n1. echo: Echo tool", some "tool"),
        (TurnPayload.text "hi", some "user")]] ∧
    (prepareTurn false
        [(TurnPayload.text "The list of available tools has been updated.\n\nThe following Tools are available:\n1. echo: Echo tool", some "tool"),
         (TurnPayload.text "hi", some "user")]).1 =
      [{ role := "tool",
         content := "The list of available tools has been updated.\n\nThe following Tools are available:\n1. echo: Echo tool" },
       { role := "user", content := "hi" }] := by
  have h := C1_capability_summary_next_turn
    [("echo", ⟨"echo", some "Echo tool"⟩)] []
    ⟨[CapItem.tool ⟨"echo", some "Echo tool"⟩], []⟩ ⟨[], []⟩ ⟨[], []⟩
    "The list of available tools has been updated.\n\nThe following Tools are available:\n1. echo: Echo tool"
    "hi" ⟨[], []⟩ false (by rfl) (by rfl) (by rfl)
  exact ⟨h.1, h.2.2.1⟩
